import Mathlib

/-!
Verification of the DeCent-Pay escrow & milestone lifecycle engine
(`contracts/decent-pay/src`), shallowly embedded in Lean 4.

The embedding follows the Rust source closely:

* `EscrowData`, `Milestone`, `EscrowStatus`, `MilestoneStatus` mirror
  `storage_types.rs`.
* The persistent keyed store (`env.storage().instance()`) is modelled as a
  record of association lists, one per `DataKey` family used by the core
  (escrows, milestones, user reverse index, per-asset counters, reputation,
  completed-escrow counts, token whitelist, and the scalar cells
  `NextEscrowId`, `PlatformFeeBP`, `JobCreationPaused`).  A `get(..).unwrap_or d`
  in the source becomes `Option.getD d` here.
* Accounts and asset identifiers are abstract and modelled as `Nat`.  The
  contract's own address (`env.current_contract_address()`, used as the key
  for the native asset) is the constant `contractAddr`.
* `i128` amounts are modelled as `Int`; the claims under study never approach
  the 128-bit range, so wrap-around is not modelled.  Rust `/` on `i128`
  truncates toward zero and is modelled with `Int.tdiv`.
* The external asset-transfer facility is opaque: each operation that calls it
  takes a boolean `xferOk` describing the facility's verdict, and on failure
  the whole operation aborts with no state change (the host transaction
  reverts), exactly as in the Soroban execution model.  On success the
  operation reports the list of transfers it issued.
* `require_auth()` is modelled by taking the authenticated caller as an
  argument; `require_owner()` of the admin module is likewise treated as an
  authenticated administrative call.
* Each external entry point is a function `ContractState → ... → OpOut`;
  `step` packages them into a transition function and `Reachable` is the set
  of states reachable from a freshly initialized contract
  (`admin::initialize` stores `NextEscrowId = 1`, `JobCreationPaused = false`
  and a fee rate of at most 1000 basis points).  The modelled operations are
  exactly the ones that write escrow records, milestones, or the fund-custody
  counters, plus the admin configuration setters; `apply_to_job` and the
  rating subsystem write only `Application`/`Rating` storage and touch none
  of the state the properties below mention.
-/

/-- Account / asset identifiers (Soroban `Address`), abstract. -/
abbrev Addr := Nat

/-- `EscrowStatus` from `storage_types.rs`. -/
inductive EscrowStatus where
  | Pending
  | InProgress
  | Released
  | Refunded
  | Disputed
  | Expired
deriving DecidableEq, Repr

/-- `MilestoneStatus` from `storage_types.rs`. -/
inductive MilestoneStatus where
  | NotStarted
  | Submitted
  | Approved
  | Disputed
  | Resolved
  | Rejected
deriving DecidableEq, Repr

/-- Contract error codes from `storage_types.rs` that the modelled operations
can produce. -/
inductive DeCentPayError where
  | FeeTooHigh
  | EscrowNotFound
  | EscrowNotActive
  | InvalidEscrowStatus
  | WorkAlreadyStarted
  | JobCreationPaused
  | InvalidDuration
  | MilestoneCountMismatch
  | TooManyMilestones
  | TooManyArbiters
  | InvalidConfirmations
  | TokenNotWhitelisted
  | NotOpenJob
  | JobClosed
  | OnlyDepositor
  | InvalidMilestone
  | MilestoneAlreadyProcessed
  | MilestoneNotSubmitted
  | NothingToRefund
  | DeadlineNotPassed
  | EmergencyPeriodNotReached
  | CannotRefund
  | InvalidExtension
  | CannotExtend
  | OnlyBeneficiary
deriving DecidableEq, Repr

/-- Outcome of an operation that is not a typed contract error: the external
transfer facility rejected the transfer (the host transaction reverts), or the
Rust code panicked (`Option::unwrap` on `None`). -/
inductive OpError where
  | contractErr (e : DeCentPayError)
  | transferFailed
  | panicked
deriving DecidableEq, Repr

/-- `Milestone` struct from `storage_types.rs`. -/
structure Milestone where
  description : String
  amount : Int
  status : MilestoneStatus
  submittedAt : Nat
  approvedAt : Nat
  disputedAt : Nat
  disputedBy : Option Addr
  disputeReason : Option String
  rejectionReason : Option String
deriving DecidableEq, Repr

/-- `EscrowData` struct from `storage_types.rs`. -/
structure EscrowData where
  depositor : Addr
  beneficiary : Option Addr
  arbiters : List Addr
  requiredConfirmations : Nat
  token : Option Addr
  totalAmount : Int
  paidAmount : Int
  platformFee : Int
  deadline : Nat
  status : EscrowStatus
  workStarted : Bool
  createdAt : Nat
  milestoneCount : Nat
  isOpenJob : Bool
  projectTitle : String
  projectDescription : String
deriving DecidableEq, Repr

/-- One call to the asset-transfer facility:
`transfer(token_or_native, source, destination, amount)`. -/
structure Transfer where
  token : Option Addr
  src : Addr
  dst : Addr
  amount : Int
deriving DecidableEq, Repr

/-- Association-list lookup (the typed keyed store). -/
def alookup {α β : Type} [DecidableEq α] : List (α × β) → α → Option β
  | [], _ => none
  | (k', v) :: rest, k => if k' = k then some v else alookup rest k

/-- Association-list write (`storage.set`): replace or append. -/
def aset {α β : Type} [DecidableEq α] : List (α × β) → α → β → List (α × β)
  | [], k, v => [(k, v)]
  | (k', v') :: rest, k, v =>
      if k' = k then (k, v) :: rest else (k', v') :: aset rest k v

theorem alookup_aset {α β : Type} [DecidableEq α] (m : List (α × β)) (k k' : α) (v : β) :
    alookup (aset m k v) k' = if k' = k then some v else alookup m k' := by
  induction m with
  | nil =>
      by_cases h : k = k'
      · subst h; simp [aset, alookup]
      · simp [aset, alookup, h, Ne.symm h]
  | cons p rest ih =>
      obtain ⟨k0, v0⟩ := p
      by_cases h0 : k0 = k
      · subst h0
        by_cases h : k0 = k'
        · subst h; simp [aset, alookup]
        · simp [aset, alookup, h, Ne.symm h]
      · by_cases h1 : k0 = k'
        · subst h1
          have hk : ¬ k0 = k := h0
          have hk' : ¬ k0 = k := h0
          simp [aset, alookup, h0, hk']
        · simp [aset, alookup, h0, h1, ih]

/-- The full persisted state of the contract (instance storage). -/
structure ContractState where
  escrows : List (Nat × EscrowData)
  milestones : List ((Nat × Nat) × Milestone)
  userEscrows : List (Addr × List Nat)
  escrowedAmount : List (Addr × Int)
  totalFeesByToken : List (Addr × Int)
  reputation : List (Addr × Nat)
  completedEscrows : List (Addr × Nat)
  whitelistedToken : List (Addr × Bool)
  nextEscrowId : Option Nat
  platformFeeBP : Option Nat
  jobCreationPaused : Option Bool
deriving DecidableEq, Repr

/-- The contract's own address, used as the per-asset key for the native
asset (`unwrap_or_else(|| env.current_contract_address())`). -/
def contractAddr : Addr := 0

/-- Key under which a (possibly native) asset's counters are stored. -/
def tokenKey (t : Option Addr) : Addr := t.getD contractAddr

/-- `escrow_core::get_escrow`. -/
def getEscrow (s : ContractState) (escrowId : Nat) : Option EscrowData :=
  alookup s.escrows escrowId

/-- `escrow_core::save_escrow`. -/
def saveEscrow (s : ContractState) (escrowId : Nat) (e : EscrowData) : ContractState :=
  { s with escrows := aset s.escrows escrowId e }

/-- Milestone read (`DataKey::Milestone(escrow_id, index)`). -/
def getMilestone (s : ContractState) (escrowId idx : Nat) : Option Milestone :=
  alookup s.milestones (escrowId, idx)

/-- Milestone write. -/
def setMilestone (s : ContractState) (escrowId idx : Nat) (m : Milestone) : ContractState :=
  { s with milestones := aset s.milestones (escrowId, idx) m }

/-- `DataKey::EscrowedAmount(token)` read, `unwrap_or(0)`. -/
def getEscrowed (s : ContractState) (tok : Addr) : Int :=
  (alookup s.escrowedAmount tok).getD 0

/-- `DataKey::TotalFeesByToken(token)` read, `unwrap_or(0)`. -/
def getTotalFees (s : ContractState) (tok : Addr) : Int :=
  (alookup s.totalFeesByToken tok).getD 0

/-- `admin::get_platform_fee_bp`: `unwrap_or(0)`. -/
def getPlatformFeeBp (s : ContractState) : Nat :=
  s.platformFeeBP.getD 0

/-- `admin::is_job_creation_paused`: `unwrap_or(false)`. -/
def isJobCreationPaused (s : ContractState) : Bool :=
  s.jobCreationPaused.getD false

/-- `escrow_core::is_whitelisted_token`: native always passes. -/
def isWhitelistedToken (s : ContractState) : Option Addr → Bool
  | none => true
  | some t => (alookup s.whitelistedToken t).getD false

/-- `escrow_core::calculate_fee`: `(amount * fee_bp) / 10000` with Rust `i128`
division (truncation toward zero). -/
def calculate_fee (s : ContractState) (amount : Int) : Int :=
  let feeBp := getPlatformFeeBp s
  if feeBp = 0 then 0 else (amount * (feeBp : Int)).tdiv 10000

/-- The `NextEscrowId` cell, `unwrap_or(1)`. -/
def nextId (s : ContractState) : Nat :=
  s.nextEscrowId.getD 1

/-- `escrow_core::add_user_escrow`: append to the per-account reverse index. -/
def addUserEscrow (s : ContractState) (user : Addr) (escrowId : Nat) : ContractState :=
  { s with userEscrows := aset s.userEscrows user (((alookup s.userEscrows user).getD []) ++ [escrowId]) }

/-- `work_lifecycle::update_reputation`. -/
def updateReputation (s : ContractState) (user : Addr) (points : Nat) : ContractState :=
  { s with reputation := aset s.reputation user (((alookup s.reputation user).getD 0) + points) }

/-- `DataKey::CompletedEscrows` increment in `approve_milestone`. -/
def incrCompleted (s : ContractState) (user : Addr) : ContractState :=
  { s with completedEscrows := aset s.completedEscrows user (((alookup s.completedEscrows user).getD 0) + 1) }

/-- Constants from `work_lifecycle.rs` and `refund_system.rs`. -/
def REPUTATION_PER_MILESTONE : Nat := 10

def REPUTATION_PER_ESCROW : Nat := 25

def MIN_REP_ELIGIBLE_ESCROW_VALUE : Int := 10000000000000000

def EMERGENCY_REFUND_DELAY : Nat := 2592000

/-- A freshly created milestone (`create_escrow`, milestone loop). -/
def newMilestone (amount : Int) (description : String) : Milestone :=
  { description := description
    amount := amount
    status := MilestoneStatus.NotStarted
    submittedAt := 0
    approvedAt := 0
    disputedAt := 0
    disputedBy := none
    disputeReason := none
    rejectionReason := none }

/-- The milestone-writing loop of `create_escrow`, over the zipped
(amount, description) pairs, starting at index `idx`. -/
def writeMilestones (s : ContractState) (escrowId : Nat) (idx : Nat) :
    List (Int × String) → ContractState
  | [] => s
  | (a, d) :: rest =>
      writeMilestones (setMilestone s escrowId idx (newMilestone a d)) escrowId (idx + 1) rest

deriving instance DecidableEq for Except

/-- Result of one external call: a typed failure, or the post-state together
with the transfers the operation issued. -/
abbrev OpOut := Except OpError (ContractState × List Transfer)

/-! ## The operations of the core (one function per external entry point) -/

/-- The escrow record persisted by `create_escrow` on success
(`escrow_management.rs`, lines 100-119). -/
def newEscrowRecord (depositor : Addr) (beneficiary : Option Addr) (arbiters : List Addr)
    (requiredConfirmations : Nat) (token : Option Addr) (totalAmount platformFee : Int)
    (deadline seq msCount : Nat) (projectTitle projectDescription : String) : EscrowData :=
  { depositor := depositor
    beneficiary := beneficiary
    arbiters := arbiters
    requiredConfirmations := requiredConfirmations
    token := token
    totalAmount := totalAmount
    paidAmount := 0
    platformFee := platformFee
    deadline := deadline
    status := EscrowStatus.Pending
    workStarted := false
    createdAt := seq
    milestoneCount := msCount
    isOpenJob := beneficiary.isNone
    projectTitle := projectTitle
    projectDescription := projectDescription }

/-- State after the success path of `create_escrow`: bump `NextEscrowId`, add
`total_amount` to the per-asset escrowed counter, persist the record and its
milestones, register the reverse index entries. -/
def createState (s : ContractState) (depositor : Addr) (beneficiary : Option Addr)
    (arbiters : List Addr) (requiredConfirmations : Nat) (milestoneAmounts : List Int)
    (milestoneDescriptions : List String) (token : Option Addr) (totalAmount : Int)
    (duration seq : Nat) (projectTitle projectDescription : String) : ContractState :=
  let platformFee := calculate_fee s totalAmount
  let deadline := seq + duration / 5
  let escrowId := nextId s
  let s1 := { s with nextEscrowId := some (escrowId + 1) }
  let tokKey := tokenKey token
  let s2 := { s1 with escrowedAmount := aset s1.escrowedAmount tokKey (getEscrowed s1 tokKey + totalAmount) }
  let record := newEscrowRecord depositor beneficiary arbiters requiredConfirmations token
      totalAmount platformFee deadline seq milestoneAmounts.length projectTitle projectDescription
  let s3 := saveEscrow s2 escrowId record
  let s4 := writeMilestones s3 escrowId 0 (milestoneAmounts.zip milestoneDescriptions)
  let s5 := addUserEscrow s4 depositor escrowId
  match beneficiary with
  | some b => addUserEscrow s5 b escrowId
  | none => s5

/-- `escrow_management::create_escrow`.  `seq` is `env.ledger().sequence()`,
`xferOk` the verdict of the external deposit transfer. -/
def create_escrow (s : ContractState) (depositor : Addr) (beneficiary : Option Addr)
    (arbiters : List Addr) (requiredConfirmations : Nat) (milestoneAmounts : List Int)
    (milestoneDescriptions : List String) (token : Option Addr) (totalAmount : Int)
    (duration seq : Nat) (projectTitle projectDescription : String) (xferOk : Bool) : OpOut :=
  if isJobCreationPaused s then .error (.contractErr .JobCreationPaused)
  else if duration < 3600 ∨ duration > 31536000 then .error (.contractErr .InvalidDuration)
  else if milestoneAmounts.length ≠ milestoneDescriptions.length then
    .error (.contractErr .MilestoneCountMismatch)
  else if milestoneAmounts.length > 20 then .error (.contractErr .TooManyMilestones)
  else if arbiters.length > 5 then .error (.contractErr .TooManyArbiters)
  else if requiredConfirmations > arbiters.length then .error (.contractErr .InvalidConfirmations)
  else if ¬ isWhitelistedToken s token then .error (.contractErr .TokenNotWhitelisted)
  else if ¬ xferOk then .error .transferFailed
  else
    .ok (createState s depositor beneficiary arbiters requiredConfirmations milestoneAmounts
          milestoneDescriptions token totalAmount duration seq projectTitle projectDescription,
        [{ token := token, src := depositor, dst := contractAddr, amount := totalAmount }])

/-- State after the success path of `start_work`: flag the work started, set
`InProgress`, recognize the platform fee in `TotalFeesByToken`. -/
def startWorkState (s : ContractState) (escrowId : Nat) (e : EscrowData) : ContractState :=
  let e1 := { e with workStarted := true, status := EscrowStatus.InProgress }
  let s1 :=
    if 0 < e1.platformFee then
      let tokKey := tokenKey e1.token
      { s with totalFeesByToken := aset s.totalFeesByToken tokKey (getTotalFees s tokKey + e1.platformFee) }
    else s
  saveEscrow s1 escrowId e1

/-- `work_lifecycle::start_work`. -/
def start_work (s : ContractState) (escrowId : Nat) (beneficiary : Addr) : OpOut :=
  if escrowId = 0 then .error (.contractErr .EscrowNotFound)
  else match getEscrow s escrowId with
  | none => .error (.contractErr .EscrowNotFound)
  | some e =>
    if e.beneficiary ≠ some beneficiary then .error (.contractErr .OnlyBeneficiary)
    else if e.status ≠ EscrowStatus.Pending then .error (.contractErr .InvalidEscrowStatus)
    else if e.workStarted then .error (.contractErr .WorkAlreadyStarted)
    else .ok (startWorkState s escrowId e, [])

/-- `work_lifecycle::submit_milestone`. -/
def submit_milestone (s : ContractState) (escrowId milestoneIndex : Nat) (beneficiary : Addr)
    (description : String) (seq : Nat) : OpOut :=
  if escrowId = 0 then .error (.contractErr .EscrowNotFound)
  else match getEscrow s escrowId with
  | none => .error (.contractErr .EscrowNotFound)
  | some e =>
    if e.beneficiary ≠ some beneficiary then .error (.contractErr .OnlyBeneficiary)
    else if e.status ≠ EscrowStatus.InProgress then .error (.contractErr .InvalidEscrowStatus)
    else if milestoneIndex ≥ e.milestoneCount then .error (.contractErr .InvalidMilestone)
    else match getMilestone s escrowId milestoneIndex with
    | none => .error (.contractErr .InvalidMilestone)
    | some m =>
      if m.status ≠ MilestoneStatus.NotStarted then .error (.contractErr .MilestoneAlreadyProcessed)
      else
        .ok (setMilestone s escrowId milestoneIndex
              { m with status := MilestoneStatus.Submitted, submittedAt := seq,
                       description := description }, [])

/-- Escrow/milestone/counter updates on the success path of
`approve_milestone` (`work_lifecycle.rs`, lines 139-235). -/
def approveState (s : ContractState) (escrowId milestoneIndex : Nat) (e : EscrowData)
    (m : Milestone) (beneficiaryAddr : Addr) (seq : Nat) : ContractState :=
  let amount := m.amount
  let m1 := { m with status := MilestoneStatus.Approved, approvedAt := seq }
  let e1 := { e with paidAmount := e.paidAmount + amount }
  let tokKey := tokenKey e.token
  let s1 := { s with escrowedAmount := aset s.escrowedAmount tokKey (getEscrowed s tokKey - amount) }
  let s2 :=
    if MIN_REP_ELIGIBLE_ESCROW_VALUE ≤ e.totalAmount then
      updateReputation s1 beneficiaryAddr REPUTATION_PER_MILESTONE
    else s1
  let p :=
    if e1.paidAmount = e1.totalAmount then
      let e2 := { e1 with status := EscrowStatus.Released }
      if MIN_REP_ELIGIBLE_ESCROW_VALUE ≤ e1.totalAmount then
        (e2, incrCompleted (incrCompleted
              (updateReputation (updateReputation s2 beneficiaryAddr REPUTATION_PER_ESCROW)
                e.depositor REPUTATION_PER_ESCROW) beneficiaryAddr) e.depositor)
      else (e2, s2)
    else (e1, s2)
  saveEscrow (setMilestone p.2 escrowId milestoneIndex m1) escrowId p.1

/-- `work_lifecycle::approve_milestone`. -/
def approve_milestone (s : ContractState) (escrowId milestoneIndex : Nat) (depositor : Addr)
    (seq : Nat) (xferOk : Bool) : OpOut :=
  if escrowId = 0 then .error (.contractErr .EscrowNotFound)
  else match getEscrow s escrowId with
  | none => .error (.contractErr .EscrowNotFound)
  | some e =>
    if e.depositor ≠ depositor then .error (.contractErr .OnlyDepositor)
    else if e.status ≠ EscrowStatus.InProgress then .error (.contractErr .EscrowNotActive)
    else if milestoneIndex ≥ e.milestoneCount then .error (.contractErr .InvalidMilestone)
    else match getMilestone s escrowId milestoneIndex with
    | none => .error (.contractErr .InvalidMilestone)
    | some m =>
      if m.status ≠ MilestoneStatus.Submitted then .error (.contractErr .MilestoneNotSubmitted)
      else match e.beneficiary with
      | none => .error .panicked
      | some beneficiaryAddr =>
        if ¬ xferOk then .error .transferFailed
        else
          .ok (approveState s escrowId milestoneIndex e m beneficiaryAddr seq,
              [{ token := e.token, src := contractAddr, dst := beneficiaryAddr, amount := m.amount }])

/-- `work_lifecycle::reject_milestone`. -/
def reject_milestone (s : ContractState) (escrowId milestoneIndex : Nat) (reason : String)
    (depositor : Addr) : OpOut :=
  if escrowId = 0 then .error (.contractErr .EscrowNotFound)
  else match getEscrow s escrowId with
  | none => .error (.contractErr .EscrowNotFound)
  | some e =>
    if e.depositor ≠ depositor then .error (.contractErr .OnlyDepositor)
    else if e.status ≠ EscrowStatus.InProgress then .error (.contractErr .EscrowNotActive)
    else if milestoneIndex ≥ e.milestoneCount then .error (.contractErr .InvalidMilestone)
    else match getMilestone s escrowId milestoneIndex with
    | none => .error (.contractErr .InvalidMilestone)
    | some m =>
      if m.status ≠ MilestoneStatus.Submitted then .error (.contractErr .MilestoneNotSubmitted)
      else
        .ok (setMilestone s escrowId milestoneIndex
              { m with status := MilestoneStatus.Rejected, rejectionReason := some reason }, [])

/-- `work_lifecycle::resubmit_milestone`. -/
def resubmit_milestone (s : ContractState) (escrowId milestoneIndex : Nat) (beneficiary : Addr)
    (description : String) (seq : Nat) : OpOut :=
  if escrowId = 0 then .error (.contractErr .EscrowNotFound)
  else match getEscrow s escrowId with
  | none => .error (.contractErr .EscrowNotFound)
  | some e =>
    if e.beneficiary ≠ some beneficiary then .error (.contractErr .OnlyBeneficiary)
    else if e.status ≠ EscrowStatus.InProgress then .error (.contractErr .InvalidEscrowStatus)
    else if milestoneIndex ≥ e.milestoneCount then .error (.contractErr .InvalidMilestone)
    else match getMilestone s escrowId milestoneIndex with
    | none => .error (.contractErr .InvalidMilestone)
    | some m =>
      if m.status ≠ MilestoneStatus.Rejected then .error (.contractErr .MilestoneAlreadyProcessed)
      else
        .ok (setMilestone s escrowId milestoneIndex
              { m with status := MilestoneStatus.Submitted, submittedAt := seq,
                       description := description, rejectionReason := none }, [])

/-- `work_lifecycle::dispute_milestone`. -/
def dispute_milestone (s : ContractState) (escrowId milestoneIndex : Nat) (reason : String)
    (disputer : Addr) (seq : Nat) : OpOut :=
  if escrowId = 0 then .error (.contractErr .EscrowNotFound)
  else match getEscrow s escrowId with
  | none => .error (.contractErr .EscrowNotFound)
  | some e =>
    if e.depositor ≠ disputer ∧ e.beneficiary ≠ some disputer then
      .error (.contractErr .OnlyDepositor)
    else if e.status ≠ EscrowStatus.InProgress then .error (.contractErr .EscrowNotActive)
    else if milestoneIndex ≥ e.milestoneCount then .error (.contractErr .InvalidMilestone)
    else match getMilestone s escrowId milestoneIndex with
    | none => .error (.contractErr .InvalidMilestone)
    | some m =>
      if m.status ≠ MilestoneStatus.Submitted ∧ m.status ≠ MilestoneStatus.Approved then
        .error (.contractErr .MilestoneNotSubmitted)
      else
        .ok (saveEscrow
              (setMilestone s escrowId milestoneIndex
                { m with status := MilestoneStatus.Disputed, disputedAt := seq,
                         disputedBy := some disputer, disputeReason := some reason })
              escrowId { e with status := EscrowStatus.Disputed }, [])

/-- `marketplace::accept_freelancer` (the only marketplace entry point that
writes an escrow record). -/
def accept_freelancer (s : ContractState) (escrowId : Nat) (depositor freelancer : Addr) : OpOut :=
  if escrowId = 0 then .error (.contractErr .EscrowNotFound)
  else match getEscrow s escrowId with
  | none => .error (.contractErr .EscrowNotFound)
  | some e =>
    if e.depositor ≠ depositor then .error (.contractErr .OnlyDepositor)
    else if ¬ e.isOpenJob then .error (.contractErr .NotOpenJob)
    else if e.status ≠ EscrowStatus.Pending then .error (.contractErr .JobClosed)
    else
      .ok (addUserEscrow
            (saveEscrow s escrowId { e with beneficiary := some freelancer, isOpenJob := false })
            freelancer escrowId, [])

/-- Escrow/counter updates on the success path of `refund_escrow`. -/
def refundState (s : ContractState) (escrowId : Nat) (e : EscrowData) : ContractState :=
  let refundAmount := e.totalAmount - e.paidAmount
  let tokKey := tokenKey e.token
  saveEscrow
    { s with escrowedAmount := aset s.escrowedAmount tokKey (getEscrowed s tokKey - refundAmount) }
    escrowId { e with status := EscrowStatus.Refunded }

/-- `refund_system::refund_escrow`. -/
def refund_escrow (s : ContractState) (escrowId : Nat) (depositor : Addr) (seq : Nat)
    (xferOk : Bool) : OpOut :=
  if escrowId = 0 then .error (.contractErr .EscrowNotFound)
  else match getEscrow s escrowId with
  | none => .error (.contractErr .EscrowNotFound)
  | some e =>
    if e.depositor ≠ depositor then .error (.contractErr .OnlyDepositor)
    else if e.status ≠ EscrowStatus.Pending then .error (.contractErr .InvalidEscrowStatus)
    else if e.workStarted then .error (.contractErr .WorkAlreadyStarted)
    else if seq ≥ e.deadline then .error (.contractErr .DeadlineNotPassed)
    else if e.totalAmount - e.paidAmount ≤ 0 then .error (.contractErr .NothingToRefund)
    else if ¬ xferOk then .error .transferFailed
    else
      .ok (refundState s escrowId e,
          [{ token := e.token, src := contractAddr, dst := depositor,
             amount := e.totalAmount - e.paidAmount }])

/-- Escrow/counter updates on the success path of
`emergency_refund_after_deadline`. -/
def emergencyState (s : ContractState) (escrowId : Nat) (e : EscrowData) : ContractState :=
  let refundAmount := e.totalAmount - e.paidAmount
  let tokKey := tokenKey e.token
  saveEscrow
    { s with escrowedAmount := aset s.escrowedAmount tokKey (getEscrowed s tokKey - refundAmount) }
    escrowId { e with status := EscrowStatus.Expired }

/-- `refund_system::emergency_refund_after_deadline`.  Note the two sources of
incompleteness faithfully preserved from the Rust: the status guard only
excludes `Released` and `Refunded`, and the native-asset branch performs no
transfer at all (`refund_system.rs`, line 124: a bare comment). -/
def emergency_refund_after_deadline (s : ContractState) (escrowId : Nat) (depositor : Addr)
    (seq : Nat) (xferOk : Bool) : OpOut :=
  if escrowId = 0 then .error (.contractErr .EscrowNotFound)
  else match getEscrow s escrowId with
  | none => .error (.contractErr .EscrowNotFound)
  | some e =>
    if e.depositor ≠ depositor then .error (.contractErr .OnlyDepositor)
    else if seq ≤ e.deadline + EMERGENCY_REFUND_DELAY then
      .error (.contractErr .EmergencyPeriodNotReached)
    else if e.status = EscrowStatus.Released ∨ e.status = EscrowStatus.Refunded then
      .error (.contractErr .CannotRefund)
    else if e.totalAmount - e.paidAmount ≤ 0 then .error (.contractErr .NothingToRefund)
    else match e.token with
    | some _ =>
        if ¬ xferOk then .error .transferFailed
        else
          .ok (emergencyState s escrowId e,
              [{ token := e.token, src := contractAddr, dst := depositor,
                 amount := e.totalAmount - e.paidAmount }])
    | none => .ok (emergencyState s escrowId e, [])

/-- `refund_system::extend_deadline`. -/
def extend_deadline (s : ContractState) (escrowId : Nat) (depositor : Addr)
    (extraSeconds : Nat) : OpOut :=
  if extraSeconds = 0 ∨ extraSeconds > 2592000 then .error (.contractErr .InvalidExtension)
  else if escrowId = 0 then .error (.contractErr .EscrowNotFound)
  else match getEscrow s escrowId with
  | none => .error (.contractErr .EscrowNotFound)
  | some e =>
    if e.depositor ≠ depositor then .error (.contractErr .OnlyDepositor)
    else if e.status ≠ EscrowStatus.InProgress ∧ e.status ≠ EscrowStatus.Pending then
      .error (.contractErr .CannotExtend)
    else .ok (saveEscrow s escrowId { e with deadline := e.deadline + extraSeconds }, [])

/-- `admin::set_platform_fee_bp` (caller is the authenticated owner). -/
def set_platform_fee_bp (s : ContractState) (feeBp : Nat) : OpOut :=
  if feeBp > 1000 then .error (.contractErr .FeeTooHigh)
  else .ok ({ s with platformFeeBP := some feeBp }, [])

/-- `whitelist_token` from `lib.rs` (owner-gated). -/
def whitelist_token (s : ContractState) (token : Addr) : OpOut :=
  .ok ({ s with whitelistedToken := aset s.whitelistedToken token true }, [])

/-- `pause_job_creation` / `unpause_job_creation` from `lib.rs` (owner-gated). -/
def set_job_creation_paused (s : ContractState) (paused : Bool) : OpOut :=
  .ok ({ s with jobCreationPaused := some paused }, [])

/-! ## Transition system -/

/-- One external call, with its authenticated caller, the current ledger
sequence where the source reads it, and the transfer facility's verdict where
the source performs a transfer. -/
inductive Op where
  | createEscrow (depositor : Addr) (beneficiary : Option Addr) (arbiters : List Addr)
      (requiredConfirmations : Nat) (milestoneAmounts : List Int)
      (milestoneDescriptions : List String) (token : Option Addr) (totalAmount : Int)
      (duration seq : Nat) (projectTitle projectDescription : String) (xferOk : Bool)
  | startWork (escrowId : Nat) (beneficiary : Addr)
  | submitMilestone (escrowId milestoneIndex : Nat) (beneficiary : Addr)
      (description : String) (seq : Nat)
  | approveMilestone (escrowId milestoneIndex : Nat) (depositor : Addr) (seq : Nat) (xferOk : Bool)
  | rejectMilestone (escrowId milestoneIndex : Nat) (reason : String) (depositor : Addr)
  | resubmitMilestone (escrowId milestoneIndex : Nat) (beneficiary : Addr)
      (description : String) (seq : Nat)
  | disputeMilestone (escrowId milestoneIndex : Nat) (reason : String) (disputer : Addr) (seq : Nat)
  | acceptFreelancer (escrowId : Nat) (depositor freelancer : Addr)
  | refundEscrow (escrowId : Nat) (depositor : Addr) (seq : Nat) (xferOk : Bool)
  | emergencyRefund (escrowId : Nat) (depositor : Addr) (seq : Nat) (xferOk : Bool)
  | extendDeadline (escrowId : Nat) (depositor : Addr) (extraSeconds : Nat)
  | setPlatformFeeBp (feeBp : Nat)
  | whitelistToken (token : Addr)
  | setJobCreationPaused (paused : Bool)

/-- Dispatch an operation to its entry point. -/
def applyOp (s : ContractState) : Op → OpOut
  | .createEscrow dep ben arb rc amts descs tok total dur seq pt pd xo =>
      create_escrow s dep ben arb rc amts descs tok total dur seq pt pd xo
  | .startWork id b => start_work s id b
  | .submitMilestone id mi b d seq => submit_milestone s id mi b d seq
  | .approveMilestone id mi dep seq xo => approve_milestone s id mi dep seq xo
  | .rejectMilestone id mi r dep => reject_milestone s id mi r dep
  | .resubmitMilestone id mi b d seq => resubmit_milestone s id mi b d seq
  | .disputeMilestone id mi r dis seq => dispute_milestone s id mi r dis seq
  | .acceptFreelancer id dep f => accept_freelancer s id dep f
  | .refundEscrow id dep seq xo => refund_escrow s id dep seq xo
  | .emergencyRefund id dep seq xo => emergency_refund_after_deadline s id dep seq xo
  | .extendDeadline id dep ex => extend_deadline s id dep ex
  | .setPlatformFeeBp bp => set_platform_fee_bp s bp
  | .whitelistToken t => whitelist_token s t
  | .setJobCreationPaused p => set_job_creation_paused s p

/-- The persisted state after an operation: every operation is one atomic
transaction, so a failing operation leaves the state untouched. -/
def step (s : ContractState) (op : Op) : ContractState :=
  match applyOp s op with
  | .ok (s', _) => s'
  | .error _ => s

/-- State of a freshly initialized contract (`admin::initialize`): empty
stores, `NextEscrowId = 1`, `JobCreationPaused = false`, and the configured
platform fee rate. -/
def initState (platformFeeBp : Nat) : ContractState :=
  { escrows := []
    milestones := []
    userEscrows := []
    escrowedAmount := []
    totalFeesByToken := []
    reputation := []
    completedEscrows := []
    whitelistedToken := []
    nextEscrowId := some 1
    platformFeeBP := some platformFeeBp
    jobCreationPaused := some false }

/-- States reachable from an initialized contract by the modelled operations.
`initialize` rejects fee rates above 1000 basis points, hence the bound. -/
inductive Reachable : ContractState → Prop where
  | init (bp : Nat) (hbp : bp ≤ 1000) : Reachable (initState bp)
  | step {s : ContractState} (op : Op) : Reachable s → Reachable (step s op)

/-! ## Milestone bookkeeping used by the invariants -/

/-- Amount of milestone `(escrowId, i)`, defaulting to 0 when absent. -/
def msAmount (s : ContractState) (escrowId i : Nat) : Int :=
  ((getMilestone s escrowId i).map Milestone.amount).getD 0

/-- A milestone status that has absorbed its payout candidacy: `Approved`
(paid out) or `Disputed` (a `Submitted` or `Approved` milestone frozen by
`dispute_milestone`; the escrow is then `Disputed` and no further milestone
operation can run on it). -/
def isConsumedStatus : Option MilestoneStatus → Bool
  | some MilestoneStatus.Approved => true
  | some MilestoneStatus.Disputed => true
  | _ => false

/-- Contribution of milestone `i` to the consumed-amount bound. -/
def contribAt (s : ContractState) (escrowId i : Nat) : Int :=
  if isConsumedStatus ((getMilestone s escrowId i).map Milestone.status) then
    msAmount s escrowId i
  else 0

/-- Sum of the amounts of consumed milestones with index below `n`. -/
def consumedSum (s : ContractState) (escrowId : Nat) : Nat → Int
  | 0 => 0
  | n + 1 => consumedSum s escrowId n + contribAt s escrowId n

/-- Sum of all milestone amounts with index below `n`. -/
def totalMsSum (s : ContractState) (escrowId : Nat) : Nat → Int
  | 0 => 0
  | n + 1 => totalMsSum s escrowId n + msAmount s escrowId n

theorem consumedSum_congr {s s' : ContractState} {id id' : Nat} (n : Nat)
    (h : ∀ i, i < n → getMilestone s' id' i = getMilestone s id i) :
    consumedSum s' id' n = consumedSum s id n := by
  induction n with
  | zero => rfl
  | succ n ih =>
      have hn := h n (Nat.lt_succ_self n)
      have hih := ih (fun i hi => h i (Nat.lt_succ_of_lt hi))
      simp [consumedSum, contribAt, msAmount, hn, hih]

theorem totalMsSum_congr {s s' : ContractState} {id id' : Nat} (n : Nat)
    (h : ∀ i, i < n → getMilestone s' id' i = getMilestone s id i) :
    totalMsSum s' id' n = totalMsSum s id n := by
  induction n with
  | zero => rfl
  | succ n ih =>
      have hn := h n (Nat.lt_succ_self n)
      have hih := ih (fun i hi => h i (Nat.lt_succ_of_lt hi))
      simp [totalMsSum, msAmount, hn, hih]

theorem consumedSum_le_totalMsSum {s : ContractState} {id : Nat} (n : Nat)
    (h : ∀ i, i < n → 0 ≤ msAmount s id i) :
    consumedSum s id n ≤ totalMsSum s id n := by
  induction n with
  | zero => exact le_refl 0
  | succ n ih =>
      have hn := h n (Nat.lt_succ_self n)
      have hih := ih (fun i hi => h i (Nat.lt_succ_of_lt hi))
      have hc : contribAt s id n ≤ msAmount s id n := by
        unfold contribAt
        split
        · exact le_refl _
        · exact hn
      simpa [consumedSum, totalMsSum] using add_le_add hih hc

/-- Updating milestone `(id, i0)` without changing its amount or its
consumed flag leaves `consumedSum` unchanged. -/
theorem consumedSum_set_same {s : ContractState} {id i0 : Nat} {m m' : Milestone}
    (hget : getMilestone s id i0 = some m) (hamt : m'.amount = m.amount)
    (hflag : isConsumedStatus (some m'.status) = isConsumedStatus (some m.status))
    (id' : Nat) (n : Nat) :
    consumedSum (setMilestone s id i0 m') id' n = consumedSum s id' n := by
  induction n with
  | zero => rfl
  | succ n ih =>
      have hstep : contribAt (setMilestone s id i0 m') id' n = contribAt s id' n := by
        by_cases hk : (id', n) = (id, i0)
        · obtain ⟨h1, h2⟩ := Prod.mk.injEq .. ▸ hk
          subst h1; subst h2
          have hg : alookup s.milestones (id', n) = some m := hget
          simp [contribAt, msAmount, getMilestone, setMilestone, alookup_aset, hg, hamt, hflag]
        · have : getMilestone (setMilestone s id i0 m') id' n = getMilestone s id' n := by
            simp [getMilestone, setMilestone, alookup_aset, hk]
          simp [contribAt, msAmount, this]
      simp [consumedSum, hstep, ih]

/-- Updating milestone `(id, i0)` without changing its amount leaves the
total milestone sum unchanged. -/
theorem totalMsSum_set_same {s : ContractState} {id i0 : Nat} {m m' : Milestone}
    (hget : getMilestone s id i0 = some m) (hamt : m'.amount = m.amount)
    (id' : Nat) (n : Nat) :
    totalMsSum (setMilestone s id i0 m') id' n = totalMsSum s id' n := by
  induction n with
  | zero => rfl
  | succ n ih =>
      have hstep : msAmount (setMilestone s id i0 m') id' n = msAmount s id' n := by
        by_cases hk : (id', n) = (id, i0)
        · obtain ⟨h1, h2⟩ := Prod.mk.injEq .. ▸ hk
          subst h1; subst h2
          have hg : alookup s.milestones (id', n) = some m := hget
          simp [msAmount, getMilestone, setMilestone, alookup_aset, hg, hamt]
        · have : getMilestone (setMilestone s id i0 m') id' n = getMilestone s id' n := by
            simp [getMilestone, setMilestone, alookup_aset, hk]
          simp [msAmount, this]
      simp [totalMsSum, hstep, ih]

/-- Flipping milestone `(id, i0)` from unconsumed to consumed (same amount)
adds exactly that amount to `consumedSum` over any range containing `i0`. -/
theorem consumedSum_set_flip {s : ContractState} {id i0 : Nat} {m m' : Milestone}
    (hget : getMilestone s id i0 = some m) (hamt : m'.amount = m.amount)
    (hold : isConsumedStatus (some m.status) = false)
    (hnew : isConsumedStatus (some m'.status) = true) :
    ∀ n, i0 < n →
      consumedSum (setMilestone s id i0 m') id n = consumedSum s id n + m.amount := by
  intro n
  induction n with
  | zero => intro h; exact absurd h (Nat.not_lt_zero _)
  | succ n ih =>
      intro hlt
      by_cases hn : i0 = n
      · subst hn
        have hbelow : consumedSum (setMilestone s id i0 m') id i0 = consumedSum s id i0 := by
          refine consumedSum_congr i0 (fun i hi => ?_)
          have : (id, i) ≠ (id, i0) := by
            intro hcontra
            exact absurd (Prod.mk.injEq .. ▸ hcontra).2 (Nat.ne_of_lt hi)
          simp [getMilestone, setMilestone, alookup_aset, this]
        have hat : contribAt (setMilestone s id i0 m') id i0 = m.amount := by
          simp [contribAt, msAmount, getMilestone, setMilestone, alookup_aset, hnew, hamt]
        have hat' : contribAt s id i0 = 0 := by
          have hg : alookup s.milestones (id, i0) = some m := hget
          simp [contribAt, msAmount, getMilestone, hg, hold]
        simp [consumedSum, hbelow, hat, hat']
      · have hi0 : i0 < n := Nat.lt_of_le_of_ne (Nat.le_of_lt_succ hlt) hn
        have hat : contribAt (setMilestone s id i0 m') id n = contribAt s id n := by
          have : (id, n) ≠ (id, i0) := by
            intro hcontra
            exact absurd (Prod.mk.injEq .. ▸ hcontra).2 (fun he => hn he.symm)
          have hm : getMilestone (setMilestone s id i0 m') id n = getMilestone s id n := by
            simp [getMilestone, setMilestone, alookup_aset, this]
          simp [contribAt, msAmount, hm]
        rw [consumedSum, consumedSum, ih hi0, hat]
        ring

/-! ## Inversion lemmas: what a successful call tells us -/

theorem create_escrow_ok {s : ContractState} {dep : Addr} {ben : Option Addr} {arb : List Addr}
    {rc : Nat} {amts : List Int} {descs : List String} {tok : Option Addr} {total : Int}
    {dur seq : Nat} {pt pd : String} {xo : Bool} {s' : ContractState} {tr : List Transfer}
    (h : create_escrow s dep ben arb rc amts descs tok total dur seq pt pd xo = .ok (s', tr)) :
    isJobCreationPaused s = false ∧ 3600 ≤ dur ∧ dur ≤ 31536000 ∧
    amts.length = descs.length ∧ amts.length ≤ 20 ∧
    s' = createState s dep ben arb rc amts descs tok total dur seq pt pd ∧
    tr = [{ token := tok, src := dep, dst := contractAddr, amount := total }] := by
  unfold create_escrow at h
  split at h
  · cases h
  · rename_i hpause
    split at h
    · cases h
    · rename_i hdur
      split at h
      · cases h
      · rename_i hlen
        split at h
        · cases h
        · rename_i hcount
          split at h
          · cases h
          · split at h
            · cases h
            · split at h
              · cases h
              · split at h
                · cases h
                · cases h
                  refine ⟨by simpa using hpause, ?_, ?_, not_not.mp hlen, by omega, rfl, rfl⟩
                  · omega
                  · omega

theorem start_work_ok {s : ContractState} {escrowId : Nat} {b : Addr} {s' : ContractState}
    {tr : List Transfer} (h : start_work s escrowId b = .ok (s', tr)) :
    ∃ e, getEscrow s escrowId = some e ∧ e.beneficiary = some b ∧
      e.status = EscrowStatus.Pending ∧ e.workStarted = false ∧
      s' = startWorkState s escrowId e ∧ tr = [] ∧ escrowId ≠ 0 := by
  unfold start_work at h
  split at h
  · cases h
  · rename_i hid0
    split at h
    · cases h
    · rename_i e heq
      split at h
      · cases h
      · rename_i hben
        split at h
        · cases h
        · rename_i hst
          split at h
          · cases h
          · rename_i hws
            cases h
            exact ⟨e, heq, not_not.mp hben, not_not.mp hst, by simpa using hws, rfl, rfl, hid0⟩

theorem submit_milestone_ok {s : ContractState} {escrowId mi : Nat} {b : Addr} {d : String}
    {seq : Nat} {s' : ContractState} {tr : List Transfer}
    (h : submit_milestone s escrowId mi b d seq = .ok (s', tr)) :
    ∃ e m, getEscrow s escrowId = some e ∧ getMilestone s escrowId mi = some m ∧
      e.beneficiary = some b ∧ e.status = EscrowStatus.InProgress ∧ mi < e.milestoneCount ∧
      m.status = MilestoneStatus.NotStarted ∧
      s' = setMilestone s escrowId mi
        { m with status := MilestoneStatus.Submitted, submittedAt := seq, description := d } ∧
      tr = [] := by
  unfold submit_milestone at h
  split at h
  · cases h
  · split at h
    · cases h
    · rename_i e heq
      split at h
      · cases h
      · rename_i hben
        split at h
        · cases h
        · rename_i hst
          split at h
          · cases h
          · rename_i hidx
            split at h
            · cases h
            · rename_i m hm
              split at h
              · cases h
              · rename_i hms
                cases h
                exact ⟨e, m, heq, hm, not_not.mp hben, not_not.mp hst,
                  Nat.lt_of_not_le hidx, not_not.mp hms, rfl, rfl⟩

theorem approve_milestone_ok {s : ContractState} {escrowId mi : Nat} {dep : Addr} {seq : Nat}
    {xo : Bool} {s' : ContractState} {tr : List Transfer}
    (h : approve_milestone s escrowId mi dep seq xo = .ok (s', tr)) :
    ∃ e m ben, getEscrow s escrowId = some e ∧ getMilestone s escrowId mi = some m ∧
      e.depositor = dep ∧ e.status = EscrowStatus.InProgress ∧ mi < e.milestoneCount ∧
      m.status = MilestoneStatus.Submitted ∧ e.beneficiary = some ben ∧
      s' = approveState s escrowId mi e m ben seq ∧
      tr = [{ token := e.token, src := contractAddr, dst := ben, amount := m.amount }] := by
  unfold approve_milestone at h
  split at h
  · cases h
  · split at h
    · cases h
    · rename_i e heq
      split at h
      · cases h
      · rename_i hdep
        split at h
        · cases h
        · rename_i hst
          split at h
          · cases h
          · rename_i hidx
            split at h
            · cases h
            · rename_i m hm
              split at h
              · cases h
              · rename_i hms
                split at h
                · cases h
                · rename_i ben hben
                  split at h
                  · cases h
                  · cases h
                    exact ⟨e, m, ben, heq, hm, not_not.mp hdep, not_not.mp hst,
                      Nat.lt_of_not_le hidx, not_not.mp hms, hben, rfl, rfl⟩

theorem reject_milestone_ok {s : ContractState} {escrowId mi : Nat} {r : String} {dep : Addr}
    {s' : ContractState} {tr : List Transfer}
    (h : reject_milestone s escrowId mi r dep = .ok (s', tr)) :
    ∃ e m, getEscrow s escrowId = some e ∧ getMilestone s escrowId mi = some m ∧
      e.depositor = dep ∧ e.status = EscrowStatus.InProgress ∧ mi < e.milestoneCount ∧
      m.status = MilestoneStatus.Submitted ∧
      s' = setMilestone s escrowId mi
        { m with status := MilestoneStatus.Rejected, rejectionReason := some r } ∧
      tr = [] := by
  unfold reject_milestone at h
  split at h
  · cases h
  · split at h
    · cases h
    · rename_i e heq
      split at h
      · cases h
      · rename_i hdep
        split at h
        · cases h
        · rename_i hst
          split at h
          · cases h
          · rename_i hidx
            split at h
            · cases h
            · rename_i m hm
              split at h
              · cases h
              · rename_i hms
                cases h
                exact ⟨e, m, heq, hm, not_not.mp hdep, not_not.mp hst,
                  Nat.lt_of_not_le hidx, not_not.mp hms, rfl, rfl⟩

theorem resubmit_milestone_ok {s : ContractState} {escrowId mi : Nat} {b : Addr} {d : String}
    {seq : Nat} {s' : ContractState} {tr : List Transfer}
    (h : resubmit_milestone s escrowId mi b d seq = .ok (s', tr)) :
    ∃ e m, getEscrow s escrowId = some e ∧ getMilestone s escrowId mi = some m ∧
      e.beneficiary = some b ∧ e.status = EscrowStatus.InProgress ∧ mi < e.milestoneCount ∧
      m.status = MilestoneStatus.Rejected ∧
      s' = setMilestone s escrowId mi
        { m with status := MilestoneStatus.Submitted, submittedAt := seq,
                 description := d, rejectionReason := none } ∧
      tr = [] := by
  unfold resubmit_milestone at h
  split at h
  · cases h
  · split at h
    · cases h
    · rename_i e heq
      split at h
      · cases h
      · rename_i hben
        split at h
        · cases h
        · rename_i hst
          split at h
          · cases h
          · rename_i hidx
            split at h
            · cases h
            · rename_i m hm
              split at h
              · cases h
              · rename_i hms
                cases h
                exact ⟨e, m, heq, hm, not_not.mp hben, not_not.mp hst,
                  Nat.lt_of_not_le hidx, not_not.mp hms, rfl, rfl⟩

theorem dispute_milestone_ok {s : ContractState} {escrowId mi : Nat} {r : String} {dis : Addr}
    {seq : Nat} {s' : ContractState} {tr : List Transfer}
    (h : dispute_milestone s escrowId mi r dis seq = .ok (s', tr)) :
    ∃ e m, getEscrow s escrowId = some e ∧ getMilestone s escrowId mi = some m ∧
      e.status = EscrowStatus.InProgress ∧ mi < e.milestoneCount ∧
      (m.status = MilestoneStatus.Submitted ∨ m.status = MilestoneStatus.Approved) ∧
      s' = saveEscrow
        (setMilestone s escrowId mi
          { m with status := MilestoneStatus.Disputed, disputedAt := seq,
                   disputedBy := some dis, disputeReason := some r })
        escrowId { e with status := EscrowStatus.Disputed } ∧
      tr = [] := by
  unfold dispute_milestone at h
  split at h
  · cases h
  · split at h
    · cases h
    · rename_i e heq
      split at h
      · cases h
      · rename_i hauth
        split at h
        · cases h
        · rename_i hst
          split at h
          · cases h
          · rename_i hidx
            split at h
            · cases h
            · rename_i m hm
              split at h
              · cases h
              · rename_i hms
                cases h
                exact ⟨e, m, heq, hm, not_not.mp hst, Nat.lt_of_not_le hidx,
                  by tauto, rfl, rfl⟩

theorem accept_freelancer_ok {s : ContractState} {escrowId : Nat} {dep f : Addr}
    {s' : ContractState} {tr : List Transfer}
    (h : accept_freelancer s escrowId dep f = .ok (s', tr)) :
    ∃ e, getEscrow s escrowId = some e ∧ e.depositor = dep ∧ e.isOpenJob = true ∧
      e.status = EscrowStatus.Pending ∧
      s' = addUserEscrow
        (saveEscrow s escrowId { e with beneficiary := some f, isOpenJob := false })
        f escrowId ∧
      tr = [] := by
  unfold accept_freelancer at h
  split at h
  · cases h
  · split at h
    · cases h
    · rename_i e heq
      split at h
      · cases h
      · rename_i hdep
        split at h
        · cases h
        · rename_i hopen
          split at h
          · cases h
          · rename_i hst
            cases h
            exact ⟨e, heq, not_not.mp hdep, by simpa using hopen, not_not.mp hst, rfl, rfl⟩

theorem refund_escrow_ok {s : ContractState} {escrowId : Nat} {dep : Addr} {seq : Nat}
    {xo : Bool} {s' : ContractState} {tr : List Transfer}
    (h : refund_escrow s escrowId dep seq xo = .ok (s', tr)) :
    ∃ e, getEscrow s escrowId = some e ∧ e.depositor = dep ∧
      e.status = EscrowStatus.Pending ∧ e.workStarted = false ∧ seq < e.deadline ∧
      0 < e.totalAmount - e.paidAmount ∧ s' = refundState s escrowId e ∧
      tr = [{ token := e.token, src := contractAddr, dst := dep,
              amount := e.totalAmount - e.paidAmount }] := by
  unfold refund_escrow at h
  split at h
  · cases h
  · split at h
    · cases h
    · rename_i e heq
      split at h
      · cases h
      · rename_i hdep
        split at h
        · cases h
        · rename_i hst
          split at h
          · cases h
          · rename_i hws
            split at h
            · cases h
            · rename_i hdl
              split at h
              · cases h
              · rename_i hamt
                split at h
                · cases h
                · cases h
                  exact ⟨e, heq, not_not.mp hdep, not_not.mp hst, by simpa using hws,
                    Nat.lt_of_not_le hdl, by omega, rfl, rfl⟩

theorem emergency_refund_ok {s : ContractState} {escrowId : Nat} {dep : Addr} {seq : Nat}
    {xo : Bool} {s' : ContractState} {tr : List Transfer}
    (h : emergency_refund_after_deadline s escrowId dep seq xo = .ok (s', tr)) :
    ∃ e, getEscrow s escrowId = some e ∧ e.depositor = dep ∧
      e.deadline + EMERGENCY_REFUND_DELAY < seq ∧
      e.status ≠ EscrowStatus.Released ∧ e.status ≠ EscrowStatus.Refunded ∧
      0 < e.totalAmount - e.paidAmount ∧ s' = emergencyState s escrowId e ∧
      (e.token = none → tr = []) := by
  unfold emergency_refund_after_deadline at h
  split at h
  · cases h
  · split at h
    · cases h
    · rename_i e heq
      split at h
      · cases h
      · rename_i hdep
        split at h
        · cases h
        · rename_i hdl
          split at h
          · cases h
          · rename_i hst
            split at h
            · cases h
            · rename_i hamt
              split at h
              · rename_i t ht
                split at h
                · cases h
                · cases h
                  refine ⟨e, heq, not_not.mp hdep, Nat.lt_of_not_le hdl, ?_, ?_, by omega, rfl, ?_⟩
                  · intro hc; exact hst (Or.inl hc)
                  · intro hc; exact hst (Or.inr hc)
                  · intro hc; rw [hc] at ht; cases ht
              · rename_i ht
                cases h
                refine ⟨e, heq, not_not.mp hdep, Nat.lt_of_not_le hdl, ?_, ?_, by omega, rfl, ?_⟩
                · intro hc; exact hst (Or.inl hc)
                · intro hc; exact hst (Or.inr hc)
                · intro _; rfl

theorem extend_deadline_ok {s : ContractState} {escrowId : Nat} {dep : Addr} {ex : Nat}
    {s' : ContractState} {tr : List Transfer}
    (h : extend_deadline s escrowId dep ex = .ok (s', tr)) :
    ∃ e, getEscrow s escrowId = some e ∧ e.depositor = dep ∧
      (e.status = EscrowStatus.InProgress ∨ e.status = EscrowStatus.Pending) ∧
      s' = saveEscrow s escrowId { e with deadline := e.deadline + ex } ∧ tr = [] := by
  unfold extend_deadline at h
  split at h
  · cases h
  · split at h
    · cases h
    · split at h
      · cases h
      · rename_i e heq
        split at h
        · cases h
        · rename_i hdep
          split at h
          · cases h
          · rename_i hst
            cases h
            exact ⟨e, heq, not_not.mp hdep, by tauto, rfl, rfl⟩

theorem set_platform_fee_bp_ok {s : ContractState} {bp : Nat} {s' : ContractState}
    {tr : List Transfer} (h : set_platform_fee_bp s bp = .ok (s', tr)) :
    bp ≤ 1000 ∧ s' = { s with platformFeeBP := some bp } ∧ tr = [] := by
  unfold set_platform_fee_bp at h
  split at h
  · cases h
  · rename_i hbp
    cases h
    exact ⟨by omega, rfl, rfl⟩

theorem whitelist_token_ok {s : ContractState} {t : Addr} {s' : ContractState}
    {tr : List Transfer} (h : whitelist_token s t = .ok (s', tr)) :
    s' = { s with whitelistedToken := aset s.whitelistedToken t true } ∧ tr = [] := by
  unfold whitelist_token at h
  cases h
  exact ⟨rfl, rfl⟩

theorem set_job_creation_paused_ok {s : ContractState} {p : Bool} {s' : ContractState}
    {tr : List Transfer} (h : set_job_creation_paused s p = .ok (s', tr)) :
    s' = { s with jobCreationPaused := some p } ∧ tr = [] := by
  unfold set_job_creation_paused at h
  cases h
  exact ⟨rfl, rfl⟩

/-! ## Invariants of reachable states -/

/-- Every stored escrow id is below the `NextEscrowId` counter, so a later
`create_escrow` can never overwrite an existing record. -/
def FreshInv (s : ContractState) : Prop :=
  ∀ id e, getEscrow s id = some e → id < nextId s

/-- Conditional payout bound: for an escrow whose milestone amounts are all
nonnegative, `paid_amount` stays between 0 and the total amount of consumed
(`Approved`/`Disputed`) milestones. -/
def PaidInv (s : ContractState) : Prop :=
  ∀ id e, getEscrow s id = some e →
    (∀ i, i < e.milestoneCount → 0 ≤ msAmount s id i) →
    0 ≤ e.paidAmount ∧ e.paidAmount ≤ consumedSum s id e.milestoneCount

/-- The stored fee rate never exceeds 1000 basis points. -/
def FeeBpInv (s : ContractState) : Prop := getPlatformFeeBp s ≤ 1000

def CoreInv (s : ContractState) : Prop := FreshInv s ∧ PaidInv s ∧ FeeBpInv s

theorem writeMilestones_escrows (pairs : List (Int × String)) (s : ContractState) (id k : Nat) :
    (writeMilestones s id k pairs).escrows = s.escrows := by
  induction pairs generalizing s k with
  | nil => rfl
  | cons p rest ih => exact (ih _ _).trans rfl

theorem writeMilestones_nextEscrowId (pairs : List (Int × String)) (s : ContractState) (id k : Nat) :
    (writeMilestones s id k pairs).nextEscrowId = s.nextEscrowId := by
  induction pairs generalizing s k with
  | nil => rfl
  | cons p rest ih => exact (ih _ _).trans rfl

theorem writeMilestones_platformFeeBP (pairs : List (Int × String)) (s : ContractState) (id k : Nat) :
    (writeMilestones s id k pairs).platformFeeBP = s.platformFeeBP := by
  induction pairs generalizing s k with
  | nil => rfl
  | cons p rest ih => exact (ih _ _).trans rfl

theorem writeMilestones_escrowedAmount (pairs : List (Int × String)) (s : ContractState) (id k : Nat) :
    (writeMilestones s id k pairs).escrowedAmount = s.escrowedAmount := by
  induction pairs generalizing s k with
  | nil => rfl
  | cons p rest ih => exact (ih _ _).trans rfl

theorem writeMilestones_getMilestone_other (pairs : List (Int × String)) (s : ContractState)
    (id k : Nat) (id' i : Nat) (hne : ¬ (id' = id ∧ k ≤ i ∧ i < k + pairs.length)) :
    getMilestone (writeMilestones s id k pairs) id' i = getMilestone s id' i := by
  induction pairs generalizing s k with
  | nil => rfl
  | cons p rest ih =>
      obtain ⟨a, d⟩ := p
      have hrec := ih (setMilestone s id k (newMilestone a d)) (k + 1)
        (by
          intro ⟨h1, h2, h3⟩
          exact hne ⟨h1, by omega, by simp [List.length_cons]; omega⟩)
      rw [writeMilestones, hrec]
      have hkey : (id', i) ≠ (id, k) := by
        intro hc
        obtain ⟨h1, h2⟩ := Prod.mk.injEq .. ▸ hc
        exact hne ⟨h1, by omega, by simp [List.length_cons]; omega⟩
      simp [getMilestone, setMilestone, alookup_aset, hkey]

theorem writeMilestones_getMilestone_in (pairs : List (Int × String)) (s : ContractState)
    (id k : Nat) (i : Nat) (hk : k ≤ i) (hi : i < k + pairs.length) :
    ∃ a d, getMilestone (writeMilestones s id k pairs) id i = some (newMilestone a d) := by
  induction pairs generalizing s k with
  | nil => simp at hi; omega
  | cons p rest ih =>
      obtain ⟨a, d⟩ := p
      by_cases hik : i = k
      · subst hik
        rw [writeMilestones]
        rw [writeMilestones_getMilestone_other rest _ id (i + 1) id i (by omega)]
        exact ⟨a, d, by simp [getMilestone, setMilestone, alookup_aset]⟩
      · have := ih (setMilestone s id k (newMilestone a d)) (k + 1) (by omega)
          (by simp [List.length_cons] at hi ⊢; omega)
        rw [writeMilestones]
        exact this

theorem msAmount_setMilestone_same {s : ContractState} {id0 mi : Nat} {m m' : Milestone}
    (hget : getMilestone s id0 mi = some m) (hamt : m'.amount = m.amount)
    (id i : Nat) : msAmount (setMilestone s id0 mi m') id i = msAmount s id i := by
  by_cases hk : (id, i) = (id0, mi)
  · obtain ⟨h1, h2⟩ := Prod.mk.injEq .. ▸ hk
    subst h1; subst h2
    have hg : alookup s.milestones (id, i) = some m := hget
    simp [msAmount, getMilestone, setMilestone, alookup_aset, hg, hamt]
  · have : getMilestone (setMilestone s id0 mi m') id i = getMilestone s id i := by
      simp [getMilestone, setMilestone, alookup_aset, hk]
    simp [msAmount, this]

theorem consumedSum_zero {s : ContractState} {id : Nat} (n : Nat)
    (h : ∀ i, i < n → ∃ a d, getMilestone s id i = some (newMilestone a d)) :
    consumedSum s id n = 0 := by
  induction n with
  | zero => rfl
  | succ n ih =>
      obtain ⟨a, d, hm⟩ := h n (Nat.lt_succ_self n)
      have hat : contribAt s id n = 0 := by
        simp [contribAt, hm, newMilestone, isConsumedStatus]
      rw [consumedSum, ih (fun i hi => h i (Nat.lt_succ_of_lt hi)), hat]
      simp

/-- `CoreInv` only looks at the escrow table, the milestone table, `NextEscrowId`
and `PlatformFeeBP`. -/
theorem inv_of_eq {s s' : ContractState}
    (hesc : s'.escrows = s.escrows) (hms : s'.milestones = s.milestones)
    (hnext : s'.nextEscrowId = s.nextEscrowId) (hbp : s'.platformFeeBP = s.platformFeeBP)
    (hinv : CoreInv s) : CoreInv s' := by
  obtain ⟨hf, hp, hb⟩ := hinv
  have hget : ∀ id, getEscrow s' id = getEscrow s id := by
    intro id; simp [getEscrow, hesc]
  have hgm : ∀ id i, getMilestone s' id i = getMilestone s id i := by
    intro id i; simp [getMilestone, hms]
  refine ⟨?_, ?_, ?_⟩
  · intro id e he
    rw [hget] at he
    have := hf id e he
    simpa [nextId, hnext] using this
  · intro id e he hnn
    rw [hget] at he
    have hnn' : ∀ i, i < e.milestoneCount → 0 ≤ msAmount s id i := by
      intro i hi
      have := hnn i hi
      simpa [msAmount, hgm] using this
    have := hp id e he hnn'
    have hcs : consumedSum s' id e.milestoneCount = consumedSum s id e.milestoneCount :=
      consumedSum_congr _ (fun i _ => hgm id i)
    rw [hcs]
    exact this
  · simpa [FeeBpInv, getPlatformFeeBp, hbp] using hb

/-- Saving an escrow record with unchanged `paid_amount` and
`milestone_count` on top of a state whose escrow/milestone tables agree with
`s` preserves `Inv`. -/
theorem inv_saveEscrow_same {s s1 : ContractState} {id0 : Nat} {e e1 : EscrowData}
    (hinv : CoreInv s) (hget : getEscrow s id0 = some e)
    (hp : e1.paidAmount = e.paidAmount) (hc : e1.milestoneCount = e.milestoneCount)
    (hesc : s1.escrows = s.escrows) (hms : s1.milestones = s.milestones)
    (hnext : s1.nextEscrowId = s.nextEscrowId) (hbp : s1.platformFeeBP = s.platformFeeBP) :
    CoreInv (saveEscrow s1 id0 e1) := by
  have hinv1 : CoreInv s1 := inv_of_eq hesc hms hnext hbp hinv
  obtain ⟨hf, hpinv, hb⟩ := hinv1
  have hget1 : getEscrow s1 id0 = some e := by
    rw [getEscrow, hesc]; exact hget
  refine ⟨?_, ?_, ?_⟩
  · intro id e' he'
    simp only [getEscrow, saveEscrow, alookup_aset] at he'
    by_cases hid : id = id0
    · rw [hid]; exact hf id0 e hget1
    · rw [if_neg hid] at he'
      exact hf id e' he'
  · intro id e' he' hnn
    have hms' : ∀ i j, getMilestone (saveEscrow s1 id0 e1) i j = getMilestone s1 i j :=
      fun i j => rfl
    have hnn1 : ∀ i, i < e'.milestoneCount → 0 ≤ msAmount s1 id i := by
      intro i hi
      have := hnn i hi
      simpa [msAmount, hms'] using this
    have hcs : consumedSum (saveEscrow s1 id0 e1) id e'.milestoneCount
        = consumedSum s1 id e'.milestoneCount :=
      consumedSum_congr _ (fun i _ => hms' id i)
    rw [hcs]
    simp only [getEscrow, saveEscrow, alookup_aset] at he'
    by_cases hid : id = id0
    · rw [if_pos hid] at he'
      cases he'
      rw [hid]
      have hbase := hpinv id0 e hget1 (by
        intro i hi
        have := hnn1 i (by omega)
        rw [hid] at this
        exact this)
      constructor
      · rw [hp]; exact hbase.1
      · rw [hp, hc]; exact hbase.2
    · rw [if_neg hid] at he'
      exact hpinv id e' he' hnn1
  · simpa [FeeBpInv, getPlatformFeeBp] using hb

/-- Updating one milestone without changing its amount or consumed flag
preserves `CoreInv` (covers submit, resubmit, reject, and disputing an
`Approved` milestone). -/
theorem inv_setMilestone_same {s : ContractState} {id0 mi : Nat} {m m' : Milestone}
    (hinv : CoreInv s) (hget : getMilestone s id0 mi = some m)
    (hamt : m'.amount = m.amount)
    (hflag : isConsumedStatus (some m'.status) = isConsumedStatus (some m.status)) :
    CoreInv (setMilestone s id0 mi m') := by
  obtain ⟨hf, hpinv, hb⟩ := hinv
  refine ⟨?_, ?_, ?_⟩
  · intro id e he
    exact hf id e he
  · intro id e he hnn
    have hnn1 : ∀ i, i < e.milestoneCount → 0 ≤ msAmount s id i := by
      intro i hi
      have := hnn i hi
      rwa [msAmount_setMilestone_same hget hamt] at this
    have hcs := consumedSum_set_same hget hamt hflag id e.milestoneCount
    rw [hcs]
    exact hpinv id e he hnn1
  · exact hb

/-- Flipping one milestone from unconsumed to consumed (same amount)
preserves `CoreInv`, provided the flipped index is inside the milestone range
of its escrow (covers approving, and disputing a `Submitted` milestone). -/
theorem inv_setMilestone_flip {s : ContractState} {id0 mi : Nat} {m m' : Milestone}
    (hinv : CoreInv s) (hget : getMilestone s id0 mi = some m)
    (hamt : m'.amount = m.amount)
    (hold : isConsumedStatus (some m.status) = false)
    (hnew : isConsumedStatus (some m'.status) = true)
    (hcount : ∀ e, getEscrow s id0 = some e → mi < e.milestoneCount) :
    CoreInv (setMilestone s id0 mi m') := by
  obtain ⟨hf, hpinv, hb⟩ := hinv
  refine ⟨?_, ?_, ?_⟩
  · intro id e he
    exact hf id e he
  · intro id e he hnn
    have hnn1 : ∀ i, i < e.milestoneCount → 0 ≤ msAmount s id i := by
      intro i hi
      have := hnn i hi
      rwa [msAmount_setMilestone_same hget hamt] at this
    by_cases hid : id = id0
    · subst hid
      have hmi : mi < e.milestoneCount := hcount e he
      have hcs := consumedSum_set_flip hget hamt hold hnew e.milestoneCount hmi
      rw [hcs]
      have hbase := hpinv id e he hnn1
      have hma : 0 ≤ m.amount := by
        have := hnn1 mi hmi
        have hg : alookup s.milestones (id, mi) = some m := hget
        simpa [msAmount, getMilestone, hg] using this
      exact ⟨hbase.1, by omega⟩
    · have hcs : consumedSum (setMilestone s id0 mi m') id e.milestoneCount
          = consumedSum s id e.milestoneCount := by
        refine consumedSum_congr _ (fun i _ => ?_)
        have hkey : (id, i) ≠ (id0, mi) := by
          intro hc
          exact hid (Prod.mk.injEq .. ▸ hc).1
        simp [getMilestone, setMilestone, alookup_aset, hkey]
      rw [hcs]
      exact hpinv id e he hnn1
  · exact hb

/-- The escrow record written back by `approve_milestone`. -/
def approveRecord (e : EscrowData) (m : Milestone) : EscrowData :=
  let e1 := { e with paidAmount := e.paidAmount + m.amount }
  if e1.paidAmount = e1.totalAmount then { e1 with status := EscrowStatus.Released } else e1

theorem approveRecord_paidAmount (e : EscrowData) (m : Milestone) :
    (approveRecord e m).paidAmount = e.paidAmount + m.amount := by
  simp only [approveRecord]; split <;> rfl

theorem approveRecord_milestoneCount (e : EscrowData) (m : Milestone) :
    (approveRecord e m).milestoneCount = e.milestoneCount := by
  simp only [approveRecord]; split <;> rfl

theorem approveRecord_platformFee (e : EscrowData) (m : Milestone) :
    (approveRecord e m).platformFee = e.platformFee := by
  simp only [approveRecord]; split <;> rfl

theorem approveRecord_totalAmount (e : EscrowData) (m : Milestone) :
    (approveRecord e m).totalAmount = e.totalAmount := by
  simp only [approveRecord]; split <;> rfl

theorem approveRecord_status (e : EscrowData) (m : Milestone) :
    (approveRecord e m).status =
      (if e.paidAmount + m.amount = e.totalAmount then EscrowStatus.Released else e.status) := by
  simp only [approveRecord]
  split <;> rfl

theorem approveState_escrows (s : ContractState) (escrowId mi : Nat) (e : EscrowData)
    (m : Milestone) (ben : Addr) (seq : Nat) :
    (approveState s escrowId mi e m ben seq).escrows = aset s.escrows escrowId (approveRecord e m) := by
  simp only [approveState, approveRecord]
  split <;> first
  | rfl
  | (split <;> rfl)

theorem approveState_milestones (s : ContractState) (escrowId mi : Nat) (e : EscrowData)
    (m : Milestone) (ben : Addr) (seq : Nat) :
    (approveState s escrowId mi e m ben seq).milestones
      = aset s.milestones (escrowId, mi)
          { m with status := MilestoneStatus.Approved, approvedAt := seq } := by
  simp only [approveState]
  split <;> first
  | rfl
  | (split <;> rfl)

theorem approveState_nextEscrowId (s : ContractState) (escrowId mi : Nat) (e : EscrowData)
    (m : Milestone) (ben : Addr) (seq : Nat) :
    (approveState s escrowId mi e m ben seq).nextEscrowId = s.nextEscrowId := by
  simp only [approveState]
  split <;> first
  | rfl
  | (split <;> rfl)

theorem approveState_platformFeeBP (s : ContractState) (escrowId mi : Nat) (e : EscrowData)
    (m : Milestone) (ben : Addr) (seq : Nat) :
    (approveState s escrowId mi e m ben seq).platformFeeBP = s.platformFeeBP := by
  simp only [approveState]
  split <;> first
  | rfl
  | (split <;> rfl)

theorem approveState_escrowedAmount (s : ContractState) (escrowId mi : Nat) (e : EscrowData)
    (m : Milestone) (ben : Addr) (seq : Nat) :
    (approveState s escrowId mi e m ben seq).escrowedAmount
      = aset s.escrowedAmount (tokenKey e.token)
          (getEscrowed s (tokenKey e.token) - m.amount) := by
  simp only [approveState]
  split <;> first
  | rfl
  | (split <;> rfl)

/-- Generic preservation lemma for the approve-shaped update: one milestone
flips from unconsumed to consumed and the escrow's `paid_amount` grows by
exactly that milestone's amount. -/
theorem coreInv_approve_generic {s sF : ContractState} {id0 mi : Nat} {e e2 : EscrowData}
    {m m1 : Milestone}
    (hinv : CoreInv s)
    (hget : getEscrow s id0 = some e) (hm : getMilestone s id0 mi = some m)
    (hmi : mi < e.milestoneCount)
    (hamt : m1.amount = m.amount)
    (hold : isConsumedStatus (some m.status) = false)
    (hnew : isConsumedStatus (some m1.status) = true)
    (hp2 : e2.paidAmount = e.paidAmount + m.amount)
    (hc2 : e2.milestoneCount = e.milestoneCount)
    (hescF : sF.escrows = aset s.escrows id0 e2)
    (hmsF : sF.milestones = aset s.milestones (id0, mi) m1)
    (hnextF : sF.nextEscrowId = s.nextEscrowId)
    (hbpF : sF.platformFeeBP = s.platformFeeBP) :
    CoreInv sF := by
  obtain ⟨hf, hpinv, hb⟩ := hinv
  have hgm : ∀ id i, getMilestone sF id i = getMilestone (setMilestone s id0 mi m1) id i := by
    intro id i
    rw [getMilestone, hmsF]; rfl
  have hgmS : ∀ id i, msAmount sF id i = msAmount s id i := by
    intro id i
    rw [msAmount, hgm, ← msAmount, msAmount_setMilestone_same hm hamt]
  refine ⟨?_, ?_, ?_⟩
  · intro id e' he'
    rw [getEscrow, hescF, alookup_aset] at he'
    have hnx : nextId sF = nextId s := by rw [nextId, hnextF]; rfl
    rw [hnx]
    by_cases hid : id = id0
    · rw [hid]; exact hf id0 e hget
    · rw [if_neg hid] at he'
      exact hf id e' he'
  · intro id e' he' hnn
    have hnnS : ∀ i, i < e'.milestoneCount → 0 ≤ msAmount s id i := by
      intro i hi
      have := hnn i hi
      rwa [hgmS] at this
    rw [getEscrow, hescF, alookup_aset] at he'
    by_cases hid : id = id0
    · rw [if_pos hid] at he'
      cases he'
      subst hid
      have hcs : consumedSum sF id e2.milestoneCount
          = consumedSum (setMilestone s id mi m1) id e2.milestoneCount :=
        consumedSum_congr _ (fun i _ => hgm id i)
      rw [hcs, hc2, consumedSum_set_flip hm hamt hold hnew e.milestoneCount hmi]
      have hbase := hpinv id e hget (by
        intro i hi
        exact hnnS i (by omega))
      have hma : 0 ≤ m.amount := by
        have := hnnS mi (by omega)
        have hg : alookup s.milestones (id, mi) = some m := hm
        simpa [msAmount, getMilestone, hg] using this
      constructor
      · omega
      · have h2 := hbase.2
        omega
    · rw [if_neg hid] at he'
      have hcs : consumedSum sF id e'.milestoneCount = consumedSum s id e'.milestoneCount := by
        refine consumedSum_congr _ (fun i _ => ?_)
        rw [hgm]
        have hkey : (id, i) ≠ (id0, mi) := by
          intro hc
          exact hid (Prod.mk.injEq .. ▸ hc).1
        simp [getMilestone, setMilestone, alookup_aset, hkey]
      rw [hcs]
      exact hpinv id e' he' hnnS
  · simpa [FeeBpInv, getPlatformFeeBp, hbpF] using hb

theorem inv_approveState {s : ContractState} {escrowId mi : Nat} {e : EscrowData} {m : Milestone}
    {ben : Addr} {seq : Nat} (hinv : CoreInv s) (hget : getEscrow s escrowId = some e)
    (hm : getMilestone s escrowId mi = some m) (hms : m.status = MilestoneStatus.Submitted)
    (hmi : mi < e.milestoneCount) :
    CoreInv (approveState s escrowId mi e m ben seq) := by
  have hamt : ({ m with status := MilestoneStatus.Approved, approvedAt := seq } : Milestone).amount
      = m.amount := rfl
  have hold : isConsumedStatus (some m.status) = false := by rw [hms]; rfl
  have hnew : isConsumedStatus
      (some ({ m with status := MilestoneStatus.Approved, approvedAt := seq } : Milestone).status)
      = true := rfl
  exact coreInv_approve_generic hinv hget hm hmi hamt hold hnew
    (approveRecord_paidAmount e m) (approveRecord_milestoneCount e m)
    (approveState_escrows s escrowId mi e m ben seq)
    (approveState_milestones s escrowId mi e m ben seq)
    (approveState_nextEscrowId s escrowId mi e m ben seq)
    (approveState_platformFeeBP s escrowId mi e m ben seq)

theorem createState_escrows (s : ContractState) (dep : Addr) (ben : Option Addr)
    (arb : List Addr) (rc : Nat) (amts : List Int) (descs : List String) (tok : Option Addr)
    (total : Int) (dur seq : Nat) (pt pd : String) :
    (createState s dep ben arb rc amts descs tok total dur seq pt pd).escrows
      = aset s.escrows (nextId s)
          (newEscrowRecord dep ben arb rc tok total (calculate_fee s total)
            (seq + dur / 5) seq amts.length pt pd) := by
  cases ben <;>
    simp [createState, addUserEscrow, writeMilestones_escrows, saveEscrow]

theorem createState_nextEscrowId (s : ContractState) (dep : Addr) (ben : Option Addr)
    (arb : List Addr) (rc : Nat) (amts : List Int) (descs : List String) (tok : Option Addr)
    (total : Int) (dur seq : Nat) (pt pd : String) :
    (createState s dep ben arb rc amts descs tok total dur seq pt pd).nextEscrowId
      = some (nextId s + 1) := by
  cases ben <;>
    simp [createState, addUserEscrow, writeMilestones_nextEscrowId, saveEscrow]

theorem createState_platformFeeBP (s : ContractState) (dep : Addr) (ben : Option Addr)
    (arb : List Addr) (rc : Nat) (amts : List Int) (descs : List String) (tok : Option Addr)
    (total : Int) (dur seq : Nat) (pt pd : String) :
    (createState s dep ben arb rc amts descs tok total dur seq pt pd).platformFeeBP
      = s.platformFeeBP := by
  cases ben <;>
    simp [createState, addUserEscrow, writeMilestones_platformFeeBP, saveEscrow]

theorem createState_escrowedAmount (s : ContractState) (dep : Addr) (ben : Option Addr)
    (arb : List Addr) (rc : Nat) (amts : List Int) (descs : List String) (tok : Option Addr)
    (total : Int) (dur seq : Nat) (pt pd : String) :
    (createState s dep ben arb rc amts descs tok total dur seq pt pd).escrowedAmount
      = aset s.escrowedAmount (tokenKey tok) (getEscrowed s (tokenKey tok) + total) := by
  cases ben <;>
    simp [createState, addUserEscrow, writeMilestones_escrowedAmount, saveEscrow, getEscrowed]

theorem createState_getMilestone (s : ContractState) (dep : Addr) (ben : Option Addr)
    (arb : List Addr) (rc : Nat) (amts : List Int) (descs : List String) (tok : Option Addr)
    (total : Int) (dur seq : Nat) (pt pd : String) :
    (∀ id i, ¬ (id = nextId s ∧ i < (amts.zip descs).length) →
      getMilestone (createState s dep ben arb rc amts descs tok total dur seq pt pd) id i
        = getMilestone s id i) ∧
    (∀ i, i < (amts.zip descs).length →
      ∃ a d, getMilestone (createState s dep ben arb rc amts descs tok total dur seq pt pd)
        (nextId s) i = some (newMilestone a d)) := by
  have hms : (createState s dep ben arb rc amts descs tok total dur seq pt pd).milestones
      = (writeMilestones
          (saveEscrow
            { s with nextEscrowId := some (nextId s + 1),
                     escrowedAmount := aset s.escrowedAmount (tokenKey tok)
                       (getEscrowed s (tokenKey tok) + total) }
            (nextId s)
            (newEscrowRecord dep ben arb rc tok total (calculate_fee s total)
              (seq + dur / 5) seq amts.length pt pd))
          (nextId s) 0 (amts.zip descs)).milestones := by
    cases ben <;> rfl
  constructor
  · intro id i hni
    rw [getMilestone, hms, ← getMilestone,
      writeMilestones_getMilestone_other _ _ _ _ _ _ (by
        intro ⟨h1, _, h3⟩
        exact hni ⟨h1, by omega⟩)]
    rfl
  · intro i hi
    obtain ⟨a, d, hd⟩ := writeMilestones_getMilestone_in (amts.zip descs)
      (saveEscrow
        { s with nextEscrowId := some (nextId s + 1),
                 escrowedAmount := aset s.escrowedAmount (tokenKey tok)
                   (getEscrowed s (tokenKey tok) + total) }
        (nextId s)
        (newEscrowRecord dep ben arb rc tok total (calculate_fee s total)
          (seq + dur / 5) seq amts.length pt pd))
      (nextId s) 0 i (Nat.zero_le i) (by omega)
    refine ⟨a, d, ?_⟩
    rw [getMilestone, hms, ← getMilestone]
    exact hd

theorem consumedSum_nonneg {s : ContractState} {id : Nat} (n : Nat)
    (h : ∀ i, i < n → 0 ≤ msAmount s id i) : 0 ≤ consumedSum s id n := by
  induction n with
  | zero => exact le_refl 0
  | succ n ih =>
      have hc : 0 ≤ contribAt s id n := by
        unfold contribAt
        split
        · exact h n (Nat.lt_succ_self n)
        · exact le_refl 0
      have := ih (fun i hi => h i (Nat.lt_succ_of_lt hi))
      rw [consumedSum]
      omega

theorem inv_createState {s : ContractState} (hinv : CoreInv s) (dep : Addr) (ben : Option Addr)
    (arb : List Addr) (rc : Nat) (amts : List Int) (descs : List String) (tok : Option Addr)
    (total : Int) (dur seq : Nat) (pt pd : String) :
    CoreInv (createState s dep ben arb rc amts descs tok total dur seq pt pd) := by
  obtain ⟨hf, hpinv, hb⟩ := hinv
  obtain ⟨hother, _⟩ := createState_getMilestone s dep ben arb rc amts descs tok total dur seq pt pd
  refine ⟨?_, ?_, ?_⟩
  · intro id e he
    rw [getEscrow, createState_escrows, alookup_aset] at he
    have hnx : nextId (createState s dep ben arb rc amts descs tok total dur seq pt pd)
        = nextId s + 1 := by
      rw [nextId, createState_nextEscrowId]; rfl
    rw [hnx]
    by_cases hid : id = nextId s
    · omega
    · rw [if_neg hid] at he
      have := hf id e he
      omega
  · intro id e he hnn
    rw [getEscrow, createState_escrows, alookup_aset] at he
    by_cases hid : id = nextId s
    · rw [if_pos hid] at he
      cases he
      rw [hid]
      rw [hid] at hnn
      exact ⟨le_refl 0, consumedSum_nonneg _ hnn⟩
    · rw [if_neg hid] at he
      have htransfer : ∀ i, getMilestone (createState s dep ben arb rc amts descs tok total
          dur seq pt pd) id i = getMilestone s id i := by
        intro i
        exact hother id i (fun hc => hid hc.1)
      have hnn1 : ∀ i, i < e.milestoneCount → 0 ≤ msAmount s id i := by
        intro i hi
        have := hnn i hi
        rwa [msAmount, htransfer, ← msAmount] at this
      have hcs : consumedSum (createState s dep ben arb rc amts descs tok total dur seq pt pd)
          id e.milestoneCount = consumedSum s id e.milestoneCount :=
        consumedSum_congr _ (fun i _ => htransfer i)
      rw [hcs]
      exact hpinv id e he hnn1
  · have : (createState s dep ben arb rc amts descs tok total dur seq pt pd).platformFeeBP
        = s.platformFeeBP := createState_platformFeeBP s dep ben arb rc amts descs tok total dur seq pt pd
    simpa [FeeBpInv, getPlatformFeeBp, this] using hb

theorem coreInv_set_fee {s : ContractState} (hinv : CoreInv s) {bp : Nat} (hbp : bp ≤ 1000) :
    CoreInv { s with platformFeeBP := some bp } := by
  obtain ⟨hf, hp, _⟩ := hinv
  refine ⟨?_, ?_, ?_⟩
  · intro id e he
    exact hf id e he
  · intro id e he hnn
    have hcs : consumedSum { s with platformFeeBP := some bp } id e.milestoneCount
        = consumedSum s id e.milestoneCount := consumedSum_congr _ (fun _ _ => rfl)
    rw [hcs]
    exact hp id e he hnn
  · simpa [FeeBpInv, getPlatformFeeBp] using hbp

theorem coreInv_addUserEscrow {s : ContractState} (hinv : CoreInv s) (u : Addr) (i : Nat) :
    CoreInv (addUserEscrow s u i) := by
  obtain ⟨hf, hp, hb⟩ := hinv
  refine ⟨?_, ?_, ?_⟩
  · intro id e he
    exact hf id e he
  · intro id e he hnn
    have hcs : consumedSum (addUserEscrow s u i) id e.milestoneCount
        = consumedSum s id e.milestoneCount := consumedSum_congr _ (fun _ _ => rfl)
    rw [hcs]
    exact hp id e he hnn
  · exact hb

theorem coreInv_whitelist {s : ContractState} (hinv : CoreInv s) (t : Addr) :
    CoreInv { s with whitelistedToken := aset s.whitelistedToken t true } := by
  obtain ⟨hf, hp, hb⟩ := hinv
  refine ⟨?_, ?_, ?_⟩
  · intro id e he
    exact hf id e he
  · intro id e he hnn
    have hcs : consumedSum { s with whitelistedToken := aset s.whitelistedToken t true }
        id e.milestoneCount = consumedSum s id e.milestoneCount :=
      consumedSum_congr _ (fun _ _ => rfl)
    rw [hcs]
    exact hp id e he hnn
  · exact hb

theorem coreInv_setPaused {s : ContractState} (hinv : CoreInv s) (p : Bool) :
    CoreInv { s with jobCreationPaused := some p } := by
  obtain ⟨hf, hp, hb⟩ := hinv
  refine ⟨?_, ?_, ?_⟩
  · intro id e he
    exact hf id e he
  · intro id e he hnn
    have hcs : consumedSum { s with jobCreationPaused := some p } id e.milestoneCount
        = consumedSum s id e.milestoneCount := consumedSum_congr _ (fun _ _ => rfl)
    rw [hcs]
    exact hp id e he hnn
  · exact hb

/-- `CoreInv` is preserved by every modelled operation. -/
theorem coreInv_step (s : ContractState) (op : Op) (hinv : CoreInv s) : CoreInv (step s op) := by
  rw [step]
  cases hap : applyOp s op with
  | error e => exact hinv
  | ok p =>
    obtain ⟨s', tr⟩ := p
    cases op with
    | createEscrow dep ben arb rc amts descs tok total dur seq pt pd xo =>
        obtain ⟨_, _, _, _, _, hs', _⟩ := create_escrow_ok (by simpa [applyOp] using hap)
        rw [hs']
        exact inv_createState hinv dep ben arb rc amts descs tok total dur seq pt pd
    | startWork id b =>
        obtain ⟨e, hget, _, _, _, hs', _, _⟩ := start_work_ok (by simpa [applyOp] using hap)
        rw [hs']
        simp only [startWorkState]
        refine inv_saveEscrow_same hinv hget rfl rfl ?_ ?_ ?_ ?_ <;> (split <;> rfl)
    | submitMilestone id mi b d seq =>
        obtain ⟨e, m, _, hm, _, _, _, hms, hs', _⟩ :=
          submit_milestone_ok (by simpa [applyOp] using hap)
        rw [hs']
        refine inv_setMilestone_same hinv hm rfl ?_
        rw [hms]; rfl
    | approveMilestone id mi dep seq xo =>
        obtain ⟨e, m, ben, hget, hm, _, _, hmi, hms, _, hs', _⟩ :=
          approve_milestone_ok (by simpa [applyOp] using hap)
        rw [hs']
        exact inv_approveState hinv hget hm hms hmi
    | rejectMilestone id mi r dep =>
        obtain ⟨e, m, _, hm, _, _, _, hms, hs', _⟩ :=
          reject_milestone_ok (by simpa [applyOp] using hap)
        rw [hs']
        refine inv_setMilestone_same hinv hm rfl ?_
        rw [hms]; rfl
    | resubmitMilestone id mi b d seq =>
        obtain ⟨e, m, _, hm, _, _, _, hms, hs', _⟩ :=
          resubmit_milestone_ok (by simpa [applyOp] using hap)
        rw [hs']
        refine inv_setMilestone_same hinv hm rfl ?_
        rw [hms]; rfl
    | disputeMilestone id mi r dis seq =>
        obtain ⟨e, m, hget, hm, _, hmi, hms, hs', _⟩ :=
          dispute_milestone_ok (by simpa [applyOp] using hap)
        rw [hs']
        cases hms with
        | inl hsub =>
            have inv1 : CoreInv (setMilestone s id mi
                { m with status := MilestoneStatus.Disputed, disputedAt := seq,
                         disputedBy := some dis, disputeReason := some r }) := by
              refine inv_setMilestone_flip hinv hm rfl ?_ rfl ?_
              · rw [hsub]; rfl
              · intro e' he'
                rw [hget] at he'
                cases he'
                exact hmi
            exact inv_saveEscrow_same inv1 hget rfl rfl rfl rfl rfl rfl
        | inr happ =>
            have inv1 : CoreInv (setMilestone s id mi
                { m with status := MilestoneStatus.Disputed, disputedAt := seq,
                         disputedBy := some dis, disputeReason := some r }) := by
              refine inv_setMilestone_same hinv hm rfl ?_
              rw [happ]; rfl
            exact inv_saveEscrow_same inv1 hget rfl rfl rfl rfl rfl rfl
    | acceptFreelancer id dep f =>
        obtain ⟨e, hget, _, _, _, hs', _⟩ := accept_freelancer_ok (by simpa [applyOp] using hap)
        rw [hs']
        have inv1 : CoreInv (saveEscrow s id { e with beneficiary := some f, isOpenJob := false }) :=
          inv_saveEscrow_same hinv hget rfl rfl rfl rfl rfl rfl
        exact coreInv_addUserEscrow inv1 f id
    | refundEscrow id dep seq xo =>
        obtain ⟨e, hget, _, _, _, _, _, hs', _⟩ := refund_escrow_ok (by simpa [applyOp] using hap)
        rw [hs']
        exact inv_saveEscrow_same hinv hget rfl rfl rfl rfl rfl rfl
    | emergencyRefund id dep seq xo =>
        obtain ⟨e, hget, _, _, _, _, _, hs', _⟩ := emergency_refund_ok (by simpa [applyOp] using hap)
        rw [hs']
        exact inv_saveEscrow_same hinv hget rfl rfl rfl rfl rfl rfl
    | extendDeadline id dep ex =>
        obtain ⟨e, hget, _, _, hs', _⟩ := extend_deadline_ok (by simpa [applyOp] using hap)
        rw [hs']
        exact inv_saveEscrow_same hinv hget rfl rfl rfl rfl rfl rfl
    | setPlatformFeeBp bp =>
        obtain ⟨hbp, hs', _⟩ := set_platform_fee_bp_ok (by simpa [applyOp] using hap)
        rw [hs']
        exact coreInv_set_fee hinv hbp
    | whitelistToken t =>
        obtain ⟨hs', _⟩ := whitelist_token_ok (by simpa [applyOp] using hap)
        rw [hs']
        exact coreInv_whitelist hinv t
    | setJobCreationPaused p =>
        obtain ⟨hs', _⟩ := set_job_creation_paused_ok (by simpa [applyOp] using hap)
        rw [hs']
        exact coreInv_setPaused hinv p

/-- Every reachable state satisfies the invariant bundle. -/
theorem reachable_coreInv {s : ContractState} (h : Reachable s) : CoreInv s := by
  induction h with
  | init bp hbp =>
      refine ⟨?_, ?_, ?_⟩
      · intro id e he
        exact absurd he (by simp [getEscrow, initState, alookup])
      · intro id e he
        exact absurd he (by simp [getEscrow, initState, alookup])
      · simpa [FeeBpInv, getPlatformFeeBp, initState] using hbp
  | step op hs ih => exact coreInv_step _ op ih

/-! ## Frame properties of a step on a single escrow record -/

/-- `op` is an `approve_milestone` call on escrow `id'`. -/
def Op.isApproveOn : Op → Nat → Prop
  | .approveMilestone id _ _ _ _, id' => id = id'
  | _, _ => False

/-- `op` is an `emergency_refund_after_deadline` call on escrow `id'`. -/
def Op.isEmergencyOn : Op → Nat → Prop
  | .emergencyRefund id _ _ _, id' => id = id'
  | _, _ => False

theorem frame_of_eq {e e' : EscrowData} (h : e' = e) {P Q R1 R2 : Prop} :
    e'.platformFee = e.platformFee ∧ e'.totalAmount = e.totalAmount ∧
    (P → e'.paidAmount = e.paidAmount) ∧ (Q → e'.status = e.status) ∧
    (R1 → R2 → e'.status = e.status) := by
  subst h
  exact ⟨rfl, rfl, fun _ => rfl, fun _ => rfl, fun _ _ => rfl⟩

theorem frame_save {s s1 : ContractState} {id0 : Nat} {e0 e1 : EscrowData} {id : Nat}
    {e e' : EscrowData}
    (hesc1 : s1.escrows = s.escrows)
    (hget : getEscrow s id = some e)
    (hget' : getEscrow (saveEscrow s1 id0 e1) id = some e')
    (hget0 : getEscrow s id0 = some e0) :
    (id = id0 ∧ e = e0 ∧ e' = e1) ∨ e' = e := by
  simp only [getEscrow, saveEscrow, alookup_aset] at hget'
  rw [hesc1] at hget'
  by_cases hid : id = id0
  · rw [if_pos hid] at hget'
    left
    refine ⟨hid, ?_, (Option.some.inj hget').symm⟩
    rw [hid] at hget
    rw [hget0] at hget
    exact (Option.some.inj hget).symm
  · rw [if_neg hid] at hget'
    right
    rw [getEscrow] at hget
    rw [hget] at hget'
    exact (Option.some.inj hget').symm

/-- What one operation can do to one escrow record: `platform_fee` and
`total_amount` never change; `paid_amount` only changes through
`approve_milestone` on that escrow; the statuses `Released`, `Refunded` and
`Expired` never change; `Disputed` only changes through
`emergency_refund_after_deadline` on that escrow. -/
theorem step_escrow_frame {s : ContractState} (op : Op) {id : Nat} {e e' : EscrowData}
    (hfresh : FreshInv s) (hget : getEscrow s id = some e)
    (hget' : getEscrow (step s op) id = some e') :
    e'.platformFee = e.platformFee ∧ e'.totalAmount = e.totalAmount ∧
    (¬ op.isApproveOn id → e'.paidAmount = e.paidAmount) ∧
    ((e.status = EscrowStatus.Released ∨ e.status = EscrowStatus.Refunded ∨
        e.status = EscrowStatus.Expired) → e'.status = e.status) ∧
    (e.status = EscrowStatus.Disputed → ¬ op.isEmergencyOn id → e'.status = e.status) := by
  unfold step at hget'
  cases hap : applyOp s op with
  | error err =>
      rw [hap] at hget'
      have h2 : getEscrow s id = some e' := hget'
      rw [hget] at h2
      exact frame_of_eq (Option.some.inj h2).symm
  | ok p =>
      obtain ⟨s2, tr⟩ := p
      rw [hap] at hget'
      have h2 : getEscrow s2 id = some e' := hget'
      clear hget'
      cases op with
      | createEscrow dep ben arb rc amts descs tok total dur seq pt pd xo =>
          obtain ⟨_, _, _, _, _, hs', _⟩ := create_escrow_ok (by simpa [applyOp] using hap)
          rw [hs'] at h2
          rw [getEscrow, createState_escrows, alookup_aset] at h2
          by_cases hid : id = nextId s
          · exfalso
            have := hfresh id e hget
            omega
          · rw [if_neg hid] at h2
            rw [getEscrow] at hget
            rw [hget] at h2
            exact frame_of_eq (Option.some.inj h2).symm
      | startWork id0 b =>
          obtain ⟨e0, hget0, _, hst, _, hs', _, _⟩ := start_work_ok (by simpa [applyOp] using hap)
          rw [hs'] at h2
          simp only [startWorkState] at h2
          rcases frame_save (by split <;> rfl) hget h2 hget0 with ⟨hid, hee, he1⟩ | heq
          · subst hee
            subst he1
            refine ⟨rfl, rfl, fun _ => rfl, ?_, ?_⟩
            · intro hterm
              rw [hst] at hterm
              rcases hterm with h | h | h <;> cases h
            · intro hdisp
              rw [hst] at hdisp
              cases hdisp
          · exact frame_of_eq heq
      | submitMilestone id0 mi b d seq =>
          obtain ⟨_, _, _, _, _, _, _, _, hs', _⟩ :=
            submit_milestone_ok (by simpa [applyOp] using hap)
          rw [hs'] at h2
          have h3 : getEscrow s id = some e' := h2
          rw [hget] at h3
          exact frame_of_eq (Option.some.inj h3).symm
      | approveMilestone id0 mi dep seq xo =>
          obtain ⟨e0, m, ben, hget0, _, _, hst, _, _, _, hs', _⟩ :=
            approve_milestone_ok (by simpa [applyOp] using hap)
          rw [hs'] at h2
          rw [getEscrow, approveState_escrows, alookup_aset] at h2
          by_cases hid : id = id0
          · rw [if_pos hid] at h2
            have hee : e = e0 := by
              rw [hid] at hget
              rw [hget0] at hget
              exact (Option.some.inj hget).symm
            have he1 : e' = approveRecord e0 m := (Option.some.inj h2).symm
            subst hee
            refine ⟨?_, ?_, ?_, ?_, ?_⟩
            · rw [he1, approveRecord_platformFee]
            · rw [he1, approveRecord_totalAmount]
            · intro hna
              exfalso
              exact hna (by rw [Op.isApproveOn]; exact hid.symm)
            · intro hterm
              rw [hst] at hterm
              rcases hterm with h | h | h <;> cases h
            · intro hdisp
              rw [hst] at hdisp
              cases hdisp
          · rw [if_neg hid] at h2
            rw [getEscrow] at hget
            rw [hget] at h2
            exact frame_of_eq (Option.some.inj h2).symm
      | rejectMilestone id0 mi r dep =>
          obtain ⟨_, _, _, _, _, _, _, _, hs', _⟩ :=
            reject_milestone_ok (by simpa [applyOp] using hap)
          rw [hs'] at h2
          have h3 : getEscrow s id = some e' := h2
          rw [hget] at h3
          exact frame_of_eq (Option.some.inj h3).symm
      | resubmitMilestone id0 mi b d seq =>
          obtain ⟨_, _, _, _, _, _, _, _, hs', _⟩ :=
            resubmit_milestone_ok (by simpa [applyOp] using hap)
          rw [hs'] at h2
          have h3 : getEscrow s id = some e' := h2
          rw [hget] at h3
          exact frame_of_eq (Option.some.inj h3).symm
      | disputeMilestone id0 mi r dis seq =>
          obtain ⟨e0, m, hget0, _, hst, _, _, hs', _⟩ :=
            dispute_milestone_ok (by simpa [applyOp] using hap)
          rw [hs'] at h2
          rcases frame_save rfl hget h2 hget0 with ⟨hid, hee, he1⟩ | heq
          · subst hee
            subst he1
            refine ⟨rfl, rfl, fun _ => rfl, ?_, ?_⟩
            · intro hterm
              rw [hst] at hterm
              rcases hterm with h | h | h <;> cases h
            · intro hdisp
              rw [hst] at hdisp
              cases hdisp
          · exact frame_of_eq heq
      | acceptFreelancer id0 dep f =>
          obtain ⟨e0, hget0, _, _, hst, hs', _⟩ :=
            accept_freelancer_ok (by simpa [applyOp] using hap)
          rw [hs'] at h2
          have h3 : getEscrow (saveEscrow s id0
              { e0 with beneficiary := some f, isOpenJob := false }) id = some e' := h2
          rcases frame_save rfl hget h3 hget0 with ⟨hid, hee, he1⟩ | heq
          · subst hee
            subst he1
            exact ⟨rfl, rfl, fun _ => rfl, fun _ => rfl, fun _ _ => rfl⟩
          · exact frame_of_eq heq
      | refundEscrow id0 dep seq xo =>
          obtain ⟨e0, hget0, _, hst, _, _, _, hs', _⟩ :=
            refund_escrow_ok (by simpa [applyOp] using hap)
          rw [hs'] at h2
          have h3 : getEscrow (saveEscrow
              { s with escrowedAmount := aset s.escrowedAmount (tokenKey e0.token) (getEscrowed s (tokenKey e0.token) - (e0.totalAmount - e0.paidAmount)) }
              id0 { e0 with status := EscrowStatus.Refunded }) id = some e' := h2
          rcases frame_save rfl hget h3 hget0 with ⟨hid, hee, he1⟩ | heq
          · subst hee
            subst he1
            refine ⟨rfl, rfl, fun _ => rfl, ?_, ?_⟩
            · intro hterm
              rw [hst] at hterm
              rcases hterm with h | h | h <;> cases h
            · intro hdisp
              rw [hst] at hdisp
              cases hdisp
          · exact frame_of_eq heq
      | emergencyRefund id0 dep seq xo =>
          obtain ⟨e0, hget0, _, _, hrel, href, _, hs', _⟩ :=
            emergency_refund_ok (by simpa [applyOp] using hap)
          rw [hs'] at h2
          have h3 : getEscrow (saveEscrow
              { s with escrowedAmount := aset s.escrowedAmount (tokenKey e0.token) (getEscrowed s (tokenKey e0.token) - (e0.totalAmount - e0.paidAmount)) }
              id0 { e0 with status := EscrowStatus.Expired }) id = some e' := h2
          rcases frame_save rfl hget h3 hget0 with ⟨hid, hee, he1⟩ | heq
          · subst hee
            subst he1
            refine ⟨rfl, rfl, fun _ => rfl, ?_, ?_⟩
            · intro hterm
              rcases hterm with h | h | h
              · exact absurd h hrel
              · exact absurd h href
              · rw [h]
            · intro hdisp hne
              exfalso
              exact hne (by rw [Op.isEmergencyOn]; exact hid.symm)
          · exact frame_of_eq heq
      | extendDeadline id0 dep ex =>
          obtain ⟨e0, hget0, _, _, hs', _⟩ :=
            extend_deadline_ok (by simpa [applyOp] using hap)
          rw [hs'] at h2
          rcases frame_save rfl hget h2 hget0 with ⟨hid, hee, he1⟩ | heq
          · subst hee
            subst he1
            exact ⟨rfl, rfl, fun _ => rfl, fun _ => rfl, fun _ _ => rfl⟩
          · exact frame_of_eq heq
      | setPlatformFeeBp bp =>
          obtain ⟨_, hs', _⟩ := set_platform_fee_bp_ok (by simpa [applyOp] using hap)
          rw [hs'] at h2
          have h3 : getEscrow s id = some e' := h2
          rw [hget] at h3
          exact frame_of_eq (Option.some.inj h3).symm
      | whitelistToken t =>
          obtain ⟨hs', _⟩ := whitelist_token_ok (by simpa [applyOp] using hap)
          rw [hs'] at h2
          have h3 : getEscrow s id = some e' := h2
          rw [hget] at h3
          exact frame_of_eq (Option.some.inj h3).symm
      | setJobCreationPaused pz =>
          obtain ⟨hs', _⟩ := set_job_creation_paused_ok (by simpa [applyOp] using hap)
          rw [hs'] at h2
          have h3 : getEscrow s id = some e' := h2
          rw [hget] at h3
          exact frame_of_eq (Option.some.inj h3).symm

/-! ## Concrete executions used to settle the claims

Trace A is the specification's own walk-through scenario: total 1000, two
milestones of 400 and 600, depositor 1, beneficiary 2, fee rate 0.  Trace B
creates an escrow whose single milestone amount (200) exceeds its total
(100) — `create_escrow` does not compare the two.  Trace C drives an escrow
into `Disputed` and then calls the emergency refund.  Trace D calls the
emergency refund twice on the same expired escrow.  Trace E creates an
escrow with `total_amount = 0`. -/

def opA0 : Op := .createEscrow 1 (some 2) [] 0 [400, 600] ["m0", "m1"] none 1000 7200 0 "t" "d" true

def stA1 : ContractState := step (initState 0) opA0

def stA2 : ContractState := step stA1 (.startWork 1 2)

def stA3 : ContractState := step stA2 (.submitMilestone 1 0 2 "w0" 1)

def stA4 : ContractState := step stA3 (.approveMilestone 1 0 1 2 true)

def stA5 : ContractState := step stA4 (.submitMilestone 1 1 2 "w1" 3)

def stA6 : ContractState := step stA5 (.approveMilestone 1 1 1 4 true)

theorem stA2_reach : Reachable stA2 :=
  Reachable.step (.startWork 1 2) (Reachable.step opA0 (Reachable.init 0 (by omega)))

theorem stA6_reach : Reachable stA6 :=
  Reachable.step (.approveMilestone 1 1 1 4 true)
    (Reachable.step (.submitMilestone 1 1 2 "w1" 3)
      (Reachable.step (.approveMilestone 1 0 1 2 true)
        (Reachable.step (.submitMilestone 1 0 2 "w0" 1) stA2_reach)))

def opB0 : Op := .createEscrow 1 (some 2) [] 0 [200] ["m0"] none 100 3600 0 "t" "d" true

def stB4 : ContractState :=
  step (step (step (step (initState 0) opB0) (.startWork 1 2))
    (.submitMilestone 1 0 2 "w" 1)) (.approveMilestone 1 0 1 2 true)

theorem stB4_reach : Reachable stB4 :=
  Reachable.step (.approveMilestone 1 0 1 2 true)
    (Reachable.step (.submitMilestone 1 0 2 "w" 1)
      (Reachable.step (.startWork 1 2)
        (Reachable.step opB0 (Reachable.init 0 (by omega)))))

def opC0 : Op := .createEscrow 1 (some 2) [] 0 [100] ["m0"] none 100 3600 0 "t" "d" true

def stC1 : ContractState := step (initState 0) opC0

def stC4 : ContractState :=
  step (step (step stC1 (.startWork 1 2)) (.submitMilestone 1 0 2 "w" 1))
    (.disputeMilestone 1 0 "bad" 1 2)

theorem stC1_reach : Reachable stC1 :=
  Reachable.step opC0 (Reachable.init 0 (by omega))

theorem stC4_reach : Reachable stC4 :=
  Reachable.step (.disputeMilestone 1 0 "bad" 1 2)
    (Reachable.step (.submitMilestone 1 0 2 "w" 1)
      (Reachable.step (.startWork 1 2) stC1_reach))

def stD2 : ContractState := step stC1 (.emergencyRefund 1 1 2592721 true)

def stD3 : ContractState := step stD2 (.emergencyRefund 1 1 2592722 true)

theorem stD3_reach : Reachable stD3 :=
  Reachable.step (.emergencyRefund 1 1 2592722 true)
    (Reachable.step (.emergencyRefund 1 1 2592721 true) stC1_reach)

def opE0 : Op := .createEscrow 1 (some 2) [] 0 [] [] none 0 3600 0 "t" "d" true

def stE1 : ContractState := step (initState 0) opE0

theorem stE1_reach : Reachable stE1 :=
  Reachable.step opE0 (Reachable.init 0 (by omega))

/-! ## Helper lemmas for the claim theorems -/

theorem getEscrowed_after {s' s : ContractState} {k : Addr} {v : Int}
    (h : s'.escrowedAmount = aset s.escrowedAmount k v) : getEscrowed s' k = v := by
  rw [getEscrowed, h, alookup_aset, if_pos rfl]
  rfl

/-- Under its preconditions, `emergency_refund_after_deadline` succeeds, and
the transfer list is empty exactly when the asset is native. -/
theorem emergency_refund_succeeds {s : ContractState} {escrowId : Nat} {dep : Addr} {seq : Nat}
    {e : EscrowData} (xo : Bool)
    (hid : escrowId ≠ 0) (hget : getEscrow s escrowId = some e) (hdep : e.depositor = dep)
    (hrel : e.status ≠ EscrowStatus.Released) (href : e.status ≠ EscrowStatus.Refunded)
    (hseq : e.deadline + EMERGENCY_REFUND_DELAY < seq)
    (hamt : 0 < e.totalAmount - e.paidAmount)
    (hx : e.token ≠ none → xo = true) :
    emergency_refund_after_deadline s escrowId dep seq xo
      = .ok (emergencyState s escrowId e,
          if e.token = none then []
          else [{ token := e.token, src := contractAddr, dst := dep,
                  amount := e.totalAmount - e.paidAmount }]) := by
  have h1 : ¬ (seq ≤ e.deadline + EMERGENCY_REFUND_DELAY) := by omega
  have h2 : ¬ (e.depositor ≠ dep) := by simp [hdep]
  have h3 : ¬ (e.status = EscrowStatus.Released ∨ e.status = EscrowStatus.Refunded) := by
    simp [hrel, href]
  have h4 : ¬ (e.totalAmount - e.paidAmount ≤ 0) := by omega
  unfold emergency_refund_after_deadline
  rw [if_neg hid, hget]
  simp only [if_neg h2, if_neg h1, if_neg h3, if_neg h4]
  cases ht : e.token with
  | some t =>
      have hxo : xo = true := hx (by rw [ht]; intro hc; cases hc)
      subst hxo
      simp [ht]
  | none =>
      simp [ht]

theorem emergencyState_getEscrow {s : ContractState} {escrowId : Nat} {e : EscrowData} :
    getEscrow (emergencyState s escrowId e) escrowId
      = some { e with status := EscrowStatus.Expired } := by
  simp [emergencyState, saveEscrow, getEscrow, alookup_aset]

theorem emergencyState_getEscrowed {s : ContractState} {escrowId : Nat} {e : EscrowData} :
    getEscrowed (emergencyState s escrowId e) (tokenKey e.token)
      = getEscrowed s (tokenKey e.token) - (e.totalAmount - e.paidAmount) :=
  getEscrowed_after rfl

/-- Escrow 1 of trace A right after creation. -/
def eA1 : EscrowData :=
  { depositor := 1, beneficiary := some 2, arbiters := [], requiredConfirmations := 0,
    token := none, totalAmount := 1000, paidAmount := 0, platformFee := 0, deadline := 1440,
    status := EscrowStatus.Pending, workStarted := false, createdAt := 0, milestoneCount := 2,
    isOpenJob := false, projectTitle := "t", projectDescription := "d" }

/-- Escrow 1 of trace A after `start_work`. -/
def eA2 : EscrowData := { eA1 with status := EscrowStatus.InProgress, workStarted := true }

/-- Escrow 1 of trace A after the first approval. -/
def eA4 : EscrowData := { eA2 with paidAmount := 400 }

/-- Milestone (1, 0) of trace A after submission. -/
def mA3 : Milestone :=
  { description := "w0", amount := 400, status := MilestoneStatus.Submitted, submittedAt := 1,
    approvedAt := 0, disputedAt := 0, disputedBy := none, disputeReason := none,
    rejectionReason := none }

/-- Milestone (1, 1) of trace A after submission. -/
def mA5 : Milestone :=
  { description := "w1", amount := 600, status := MilestoneStatus.Submitted, submittedAt := 3,
    approvedAt := 0, disputedAt := 0, disputedBy := none, disputeReason := none,
    rejectionReason := none }

/-- Escrow 1 of trace C right after creation. -/
def eC1 : EscrowData :=
  { depositor := 1, beneficiary := some 2, arbiters := [], requiredConfirmations := 0,
    token := none, totalAmount := 100, paidAmount := 0, platformFee := 0, deadline := 720,
    status := EscrowStatus.Pending, workStarted := false, createdAt := 0, milestoneCount := 1,
    isOpenJob := false, projectTitle := "t", projectDescription := "d" }

/-- Escrow 1 of trace D after the first emergency refund. -/
def eD2 : EscrowData := { eC1 with status := EscrowStatus.Expired }

/-- Escrow 1 of trace C after the dispute. -/
def eC4 : EscrowData := { eC1 with status := EscrowStatus.Disputed, workStarted := true }

theorem stA4_reach : Reachable stA4 :=
  Reachable.step (.approveMilestone 1 0 1 2 true)
    (Reachable.step (.submitMilestone 1 0 2 "w0" 1) stA2_reach)

theorem stD2_reach : Reachable stD2 :=
  Reachable.step (.emergencyRefund 1 1 2592721 true) stC1_reach

/-! ## The claims -/

/-- C1, counterexample.  The claim states that `0 ≤ paid_amount ≤ total_amount`
holds for every escrow in every reachable state.  It is false: `create_escrow`
never compares the milestone amounts with the escrow total (flagged as an open
question in the design notes), so approving the single 200-amount milestone of
an escrow whose `total_amount` is 100 drives `paid_amount` to 200 > 100 in the
reachable state `stB4`. -/
theorem c1_counterexample :
    Reachable stB4 ∧
    (getEscrow stB4 1).map (fun e => (e.paidAmount, e.totalAmount)) = some (200, 100) ∧
    ¬ ((200 : Int) ≤ 100) :=
  ⟨stB4_reach, by decide, by decide⟩

/-- C1, amended.  For every escrow record in every reachable state whose
milestone amounts are all nonnegative and sum to at most `total_amount`
(create_escrow does not enforce either condition), `0 ≤ paid_amount ≤
total_amount` holds: `paid_amount` starts at 0 at creation and every
`approve_milestone` keeps it between 0 and the sum of consumed milestone
amounts, which the hypotheses bound by `total_amount`. -/
theorem c1_amended {s : ContractState} {id : Nat} {e : EscrowData}
    (hreach : Reachable s) (hget : getEscrow s id = some e)
    (hnn : ∀ i, i < e.milestoneCount → 0 ≤ msAmount s id i)
    (hsum : totalMsSum s id e.milestoneCount ≤ e.totalAmount) :
    0 ≤ e.paidAmount ∧ e.paidAmount ≤ e.totalAmount := by
  obtain ⟨_, hp, _⟩ := reachable_coreInv hreach
  obtain ⟨h1, h2⟩ := hp id e hget hnn
  exact ⟨h1, le_trans h2 (le_trans (consumedSum_le_totalMsSum _ hnn) hsum)⟩

/-- C1, witness: the amended bound evaluated on the reachable mid-trace state
`stA4` (paid 400 of 1000, milestone amounts 400 and 600). -/
theorem c1_amended_witness : 0 ≤ eA4.paidAmount ∧ eA4.paidAmount ≤ eA4.totalAmount := by
  have hget : getEscrow stA4 1 = some eA4 := by decide
  have hnn : ∀ i, i < eA4.milestoneCount → 0 ≤ msAmount stA4 1 i := by decide
  have hsum : totalMsSum stA4 1 eA4.milestoneCount ≤ eA4.totalAmount := by decide
  exact c1_amended stA4_reach hget hnn hsum

/-- C2.  A successful `approve_milestone` adds exactly the approved
milestone's frozen amount to the escrow's `paid_amount` and subtracts the
identical amount from the per-asset escrowed counter in the same operation;
and no other operation changes the `paid_amount` of any stored escrow. -/
theorem c2_conservation :
    (∀ s escrowId mi dep seq xo s' tr e m,
      approve_milestone s escrowId mi dep seq xo = .ok (s', tr) →
      getEscrow s escrowId = some e → getMilestone s escrowId mi = some m →
      (getEscrow s' escrowId).map EscrowData.paidAmount = some (e.paidAmount + m.amount) ∧
      getEscrowed s' (tokenKey e.token) = getEscrowed s (tokenKey e.token) - m.amount) ∧
    (∀ s op id e e', Reachable s → ¬ op.isApproveOn id →
      getEscrow s id = some e → getEscrow (step s op) id = some e' →
      e'.paidAmount = e.paidAmount) := by
  constructor
  · intro s escrowId mi dep seq xo s' tr e m h hget hm
    obtain ⟨e0, m0, ben, hget0, hm0, _, _, _, _, _, hs', _⟩ := approve_milestone_ok h
    have hee : e = e0 := by
      rw [hget0] at hget
      exact (Option.some.inj hget).symm
    have hmm : m = m0 := by
      rw [hm0] at hm
      exact (Option.some.inj hm).symm
    subst hee
    subst hmm
    subst hs'
    constructor
    · rw [getEscrow, approveState_escrows, alookup_aset, if_pos rfl]
      simp [approveRecord_paidAmount]
    · rw [getEscrowed_after (approveState_escrowedAmount s escrowId mi e m ben seq)]
  · intro s op id e e' hreach hnap hget hget'
    obtain ⟨hfresh, _, _⟩ := reachable_coreInv hreach
    exact ((step_escrow_frame op hfresh hget hget').2.2.1) hnap

/-- C2, witness: the first approval of trace A moves `paid_amount` from 0 to
400 and the native escrowed counter from 1000 to 600; and `submit_milestone`
(a non-approve operation) leaves `paid_amount` untouched. -/
theorem c2_conservation_witness :
    ((getEscrow stA4 1).map EscrowData.paidAmount = some (eA2.paidAmount + mA3.amount) ∧
      getEscrowed stA4 (tokenKey eA2.token) = getEscrowed stA3 (tokenKey eA2.token) - mA3.amount) ∧
    eA2.paidAmount = eA2.paidAmount := by
  constructor
  · exact c2_conservation.1 stA3 1 0 1 2 true stA4
      [{ token := none, src := contractAddr, dst := 2, amount := 400 }] eA2 mA3
      (by decide) (by decide) (by decide)
  · exact c2_conservation.2 stA2 (.submitMilestone 1 0 2 "w0" 1) 1 eA2 eA2 stA2_reach
      (fun h => h) (by decide) (by decide)

/-- C3, counterexample.  The claim says `Released`, `Refunded`, `Expired` and
`Disputed` are all terminal.  `Disputed` is not: in the reachable state `stC4`
escrow 1 is `Disputed`, and a successful `emergency_refund_after_deadline`
(whose status guard only excludes `Released` and `Refunded`) moves it to
`Expired`. -/
theorem c3_counterexample :
    Reachable stC4 ∧
    (getEscrow stC4 1).map EscrowData.status = some EscrowStatus.Disputed ∧
    (getEscrow (step stC4 (.emergencyRefund 1 1 2592721 true)) 1).map EscrowData.status
      = some EscrowStatus.Expired ∧
    EscrowStatus.Expired ≠ EscrowStatus.Disputed :=
  ⟨stC4_reach, by decide, by decide, by decide⟩

/-- C3, amended.  `Released`, `Refunded` and `Expired` are terminal for every
modelled operation on every reachable state; `Disputed` is terminal for every
operation except `emergency_refund_after_deadline` on that escrow, which can
move it to `Expired`. -/
theorem c3_amended :
    (∀ s op id e e', Reachable s → getEscrow s id = some e →
      (e.status = EscrowStatus.Released ∨ e.status = EscrowStatus.Refunded ∨
        e.status = EscrowStatus.Expired) →
      getEscrow (step s op) id = some e' → e'.status = e.status) ∧
    (∀ s op id e e', Reachable s → getEscrow s id = some e →
      e.status = EscrowStatus.Disputed → ¬ op.isEmergencyOn id →
      getEscrow (step s op) id = some e' → e'.status = e.status) := by
  constructor
  · intro s op id e e' hreach hget hterm hget'
    obtain ⟨hfresh, _, _⟩ := reachable_coreInv hreach
    exact (step_escrow_frame op hfresh hget hget').2.2.2.1 hterm
  · intro s op id e e' hreach hget hdisp hnem hget'
    obtain ⟨hfresh, _, _⟩ := reachable_coreInv hreach
    exact (step_escrow_frame op hfresh hget hget').2.2.2.2 hdisp hnem

/-- C3, witness: an `Expired` escrow keeps its status across a further
operation, and a `Disputed` escrow keeps its status across a non-emergency
operation. -/
theorem c3_amended_witness : eD2.status = eD2.status ∧ eC4.status = eC4.status := by
  constructor
  · exact c3_amended.1 stD2 (.startWork 1 2) 1 eD2 eD2 stD2_reach (by decide)
      (by decide) (by decide)
  · exact c3_amended.2 stC4 (.extendDeadline 1 1 5) 1 eC4 eC4 stC4_reach (by decide)
      (by decide) (fun h => h) (by decide)

/-- C4.  Whenever the grace period has passed and the escrow is not
`Released`/`Refunded` — including when it is already `Expired` or `Disputed` —
`emergency_refund_after_deadline` by the depositor succeeds; two consecutive
successful calls each decrement the per-asset escrowed counter by
`total_amount - paid_amount`, so the counter can become negative, as the
reachable state `stD3` (counter -100) shows. -/
theorem c4_double_emergency_refund :
    (∀ s escrowId dep seq1 seq2 e, escrowId ≠ 0 →
      getEscrow s escrowId = some e → e.depositor = dep →
      e.status ≠ EscrowStatus.Released → e.status ≠ EscrowStatus.Refunded →
      e.deadline + EMERGENCY_REFUND_DELAY < seq1 →
      e.deadline + EMERGENCY_REFUND_DELAY < seq2 →
      0 < e.totalAmount - e.paidAmount →
      emergency_refund_after_deadline s escrowId dep seq1 true
        = .ok (emergencyState s escrowId e,
            if e.token = none then []
            else [{ token := e.token, src := contractAddr, dst := dep,
                    amount := e.totalAmount - e.paidAmount }]) ∧
      (getEscrow (emergencyState s escrowId e) escrowId).map EscrowData.status
        = some EscrowStatus.Expired ∧
      getEscrowed (emergencyState s escrowId e) (tokenKey e.token)
        = getEscrowed s (tokenKey e.token) - (e.totalAmount - e.paidAmount) ∧
      emergency_refund_after_deadline (emergencyState s escrowId e) escrowId dep seq2 true
        = .ok (emergencyState (emergencyState s escrowId e) escrowId
              { e with status := EscrowStatus.Expired },
            if e.token = none then []
            else [{ token := e.token, src := contractAddr, dst := dep,
                    amount := e.totalAmount - e.paidAmount }]) ∧
      getEscrowed (emergencyState (emergencyState s escrowId e) escrowId
          { e with status := EscrowStatus.Expired }) (tokenKey e.token)
        = getEscrowed s (tokenKey e.token) - 2 * (e.totalAmount - e.paidAmount)) ∧
    (Reachable stD3 ∧ getEscrowed stD3 contractAddr = -100 ∧
      getEscrowed stD3 contractAddr < 0) := by
  constructor
  · intro s escrowId dep seq1 seq2 e hid hget hdep hrel href hs1 hs2 hamt
    have h1 := emergency_refund_succeeds true hid hget hdep hrel href hs1 hamt (fun _ => rfl)
    have hget1 : getEscrow (emergencyState s escrowId e) escrowId
        = some { e with status := EscrowStatus.Expired } := emergencyState_getEscrow
    have h2 := emergency_refund_succeeds true hid hget1 hdep
      (by simp) (by simp) hs2 hamt (fun _ => rfl)
    refine ⟨h1, ?_, emergencyState_getEscrowed, h2, ?_⟩
    · rw [hget1]
      rfl
    · have ha := @emergencyState_getEscrowed (emergencyState s escrowId e) escrowId
        { e with status := EscrowStatus.Expired }
      have ha' : getEscrowed (emergencyState (emergencyState s escrowId e) escrowId
            { e with status := EscrowStatus.Expired }) (tokenKey e.token)
          = getEscrowed (emergencyState s escrowId e) (tokenKey e.token)
            - (e.totalAmount - e.paidAmount) := ha
      rw [ha', @emergencyState_getEscrowed s escrowId e]
      ring
  · exact ⟨stD3_reach, by decide, by decide⟩

/-- C4, witness: the general double-refund theorem instantiated on the
concrete escrow of trace C/D. -/
theorem c4_double_emergency_refund_witness :
    emergency_refund_after_deadline stC1 1 1 2592721 true
      = .ok (emergencyState stC1 1 eC1, []) ∧
    getEscrowed (emergencyState (emergencyState stC1 1 eC1) 1
        { eC1 with status := EscrowStatus.Expired }) (tokenKey eC1.token)
      = getEscrowed stC1 (tokenKey eC1.token) - 2 * (eC1.totalAmount - eC1.paidAmount) := by
  obtain ⟨h1, _, _, _, h5⟩ := c4_double_emergency_refund.1 stC1 1 1 2592721 2592722 eC1
    (by decide) (by decide) (by decide) (by decide) (by decide) (by decide) (by decide)
    (by decide)
  exact ⟨h1, h5⟩

/-- C5, counterexample.  After all milestones of the trace-A escrow are
approved (`paid_amount = total_amount = 1000`, status `Released`), a further
`approve_milestone` fails with `EscrowNotActive` — the status guard fires
before the milestone-status guard — not with `MilestoneNotSubmitted` as the
claim states. -/
theorem c5_counterexample :
    Reachable stA6 ∧
    (getEscrow stA6 1).map (fun e => (e.paidAmount, e.totalAmount, e.status))
      = some (1000, 1000, EscrowStatus.Released) ∧
    applyOp stA6 (.approveMilestone 1 0 1 5 true)
      = .error (.contractErr .EscrowNotActive) ∧
    OpError.contractErr .EscrowNotActive ≠ OpError.contractErr .MilestoneNotSubmitted :=
  ⟨stA6_reach, by decide, by decide, by decide⟩

/-- C5, amended.  A successful approval flips the status to `Released` exactly
when it makes `paid_amount` equal `total_amount` (so, approving all milestones
drives `paid_amount` to the SUM of the milestone amounts, which equals
`total_amount` when the amounts sum to the total, and flips the status exactly
once); afterwards a further `approve_milestone` by the depositor fails with
`EscrowNotActive`, not `MilestoneNotSubmitted`.  The final conjuncts record
the flip happening exactly at the last approval of the specification's own
scenario. -/
theorem c5_amended :
    (∀ s escrowId mi dep seq xo s' tr e m,
      approve_milestone s escrowId mi dep seq xo = .ok (s', tr) →
      getEscrow s escrowId = some e → getMilestone s escrowId mi = some m →
      (e.paidAmount + m.amount = e.totalAmount →
        (getEscrow s' escrowId).map EscrowData.status = some EscrowStatus.Released) ∧
      (e.paidAmount + m.amount ≠ e.totalAmount →
        (getEscrow s' escrowId).map EscrowData.status = some EscrowStatus.InProgress)) ∧
    (∀ s escrowId mi dep seq xo e, escrowId ≠ 0 →
      getEscrow s escrowId = some e → e.depositor = dep →
      e.status = EscrowStatus.Released →
      approve_milestone s escrowId mi dep seq xo
        = .error (.contractErr .EscrowNotActive)) ∧
    ((getEscrow stA4 1).map EscrowData.status = some EscrowStatus.InProgress ∧
      (getEscrow stA6 1).map (fun e => (e.paidAmount, e.totalAmount, e.status))
        = some (1000, 1000, EscrowStatus.Released)) := by
  refine ⟨?_, ?_, by decide, by decide⟩
  · intro s escrowId mi dep seq xo s' tr e m h hget hm
    obtain ⟨e0, m0, ben, hget0, hm0, _, hst, _, _, _, hs', _⟩ := approve_milestone_ok h
    have hee : e = e0 := by
      rw [hget0] at hget
      exact (Option.some.inj hget).symm
    have hmm : m = m0 := by
      rw [hm0] at hm
      exact (Option.some.inj hm).symm
    subst hee
    subst hmm
    subst hs'
    have hlook : getEscrow (approveState s escrowId mi e m ben seq) escrowId
        = some (approveRecord e m) := by
      rw [getEscrow, approveState_escrows, alookup_aset, if_pos rfl]
    constructor
    · intro hfin
      rw [hlook]
      simp [approveRecord_status, hfin]
    · intro hfin
      rw [hlook]
      simp [approveRecord_status, hfin, hst]
  · intro s escrowId mi dep seq xo e hid hget hdep hrel
    have h2 : ¬ (e.depositor ≠ dep) := by simp [hdep]
    have h3 : e.status ≠ EscrowStatus.InProgress := by rw [hrel]; exact fun hc => by cases hc
    unfold approve_milestone
    rw [if_neg hid, hget]
    simp only [if_neg h2, if_pos h3]

/-- Escrow 1 of trace A after both approvals. -/
def eA6 : EscrowData := { eA4 with paidAmount := 1000, status := EscrowStatus.Released }

/-- C5, witness: the second approval of trace A (400 + 600 = 1000) flips the
status to `Released`, and a repeat approval on the released escrow fails with
`EscrowNotActive`. -/
theorem c5_amended_witness :
    (getEscrow stA6 1).map EscrowData.status = some EscrowStatus.Released ∧
    approve_milestone stA6 1 0 1 5 true = .error (.contractErr .EscrowNotActive) := by
  constructor
  · exact ((c5_amended.1 stA5 1 1 1 4 true stA6
      [{ token := none, src := contractAddr, dst := 2, amount := 600 }] eA4 mA5
      (by decide) (by decide) (by decide)).1 (by decide))
  · exact c5_amended.2.1 stA6 1 0 1 5 true eA6 (by decide) (by decide) (by decide) (by decide)

/-- C6, counterexample.  After `start_work` has succeeded (reachable state
`stA2`, status `InProgress`, `work_started = true`), `refund_escrow` by the
depositor fails with `InvalidEscrowStatus` — the status guard fires before the
`work_started` guard — not with `WorkAlreadyStarted` as the claim states. -/
theorem c6_counterexample :
    Reachable stA2 ∧
    applyOp stA1 (.startWork 1 2) = .ok (stA2, []) ∧
    (getEscrow stA2 1).map (fun e => (e.status, e.workStarted))
      = some (EscrowStatus.InProgress, true) ∧
    applyOp stA2 (.refundEscrow 1 1 10 true) = .error (.contractErr .InvalidEscrowStatus) ∧
    OpError.contractErr .InvalidEscrowStatus ≠ OpError.contractErr .WorkAlreadyStarted :=
  ⟨stA2_reach, by decide, by decide, by decide, by decide⟩

/-- C6, amended.  `refund_escrow` succeeds only from `Pending` with
`work_started = false`; after a successful `start_work` it fails with
`InvalidEscrowStatus` (the status is `InProgress` and is checked before the
`work_started` flag), not `WorkAlreadyStarted`. -/
theorem c6_amended :
    (∀ s escrowId dep seq xo s' tr e,
      refund_escrow s escrowId dep seq xo = .ok (s', tr) →
      getEscrow s escrowId = some e →
      e.status = EscrowStatus.Pending ∧ e.workStarted = false) ∧
    (∀ s escrowId b s1 tr1 e dep seq xo,
      start_work s escrowId b = .ok (s1, tr1) → getEscrow s escrowId = some e →
      e.depositor = dep →
      refund_escrow s1 escrowId dep seq xo = .error (.contractErr .InvalidEscrowStatus)) := by
  constructor
  · intro s escrowId dep seq xo s' tr e h hget
    obtain ⟨e0, hget0, _, hst, hws, _, _, _, _⟩ := refund_escrow_ok h
    have hee : e = e0 := by
      rw [hget0] at hget
      exact (Option.some.inj hget).symm
    subst hee
    exact ⟨hst, hws⟩
  · intro s escrowId b s1 tr1 e dep seq xo h hget hdep
    obtain ⟨e0, hget0, _, _, _, hs1, _, hid⟩ := start_work_ok h
    have hee : e = e0 := by
      rw [hget0] at hget
      exact (Option.some.inj hget).symm
    subst hee
    subst hs1
    have hget1 : getEscrow (startWorkState s escrowId e) escrowId
        = some { e with workStarted := true, status := EscrowStatus.InProgress } := by
      simp only [startWorkState]
      split <;> simp [getEscrow, saveEscrow, alookup_aset]
    unfold refund_escrow
    rw [if_neg hid, hget1]
    simp [hdep]

/-- C6, witness: a successful refund (from the `Pending` trace-C escrow) was
indeed in state `Pending` with `work_started = false`; and after the
successful `start_work` of trace A, `refund_escrow` fails with
`InvalidEscrowStatus`. -/
theorem c6_amended_witness :
    (eC1.status = EscrowStatus.Pending ∧ eC1.workStarted = false) ∧
    refund_escrow stA2 1 1 10 true = .error (.contractErr .InvalidEscrowStatus) := by
  constructor
  · exact c6_amended.1 stC1 1 1 10 true (refundState stC1 1 eC1)
      [{ token := none, src := contractAddr, dst := 1, amount := 100 }] eC1
      (by decide) (by decide)
  · exact c6_amended.2 stA1 1 2 stA2 [] eA1 1 10 true (by decide) (by decide) (by decide)

/-- C7, counterexample.  The claim states every persisted escrow has
`total_amount > 0`.  It is false: `create_escrow` performs no check on
`total_amount` at all, so (the deposit transfer of 0 succeeding) the reachable
state `stE1` stores escrow 1 with `total_amount = 0`. -/
theorem c7_counterexample :
    Reachable stE1 ∧
    (getEscrow stE1 1).map EscrowData.totalAmount = some 0 ∧
    ¬ ((0 : Int) > 0) :=
  ⟨stE1_reach, by decide, by decide⟩

/-- C7, amended.  Every escrow record that `create_escrow` persists has
`total_amount` equal to the requested amount, whatever its sign:
`create_escrow` performs no positivity validation, so a zero (or, if the
transfer facility accepted it, negative) total is persisted as-is. -/
theorem c7_amended :
    ∀ s dep ben arb rc amts descs tok total dur seq pt pd xo s' tr,
      create_escrow s dep ben arb rc amts descs tok total dur seq pt pd xo = .ok (s', tr) →
      (getEscrow s' (nextId s)).map EscrowData.totalAmount = some total := by
  intro s dep ben arb rc amts descs tok total dur seq pt pd xo s' tr h
  obtain ⟨_, _, _, _, _, hs', _⟩ := create_escrow_ok h
  subst hs'
  rw [getEscrow, createState_escrows, alookup_aset, if_pos rfl]
  rfl

/-- C7, witness: the zero-total creation of trace E persists `total_amount = 0`. -/
theorem c7_amended_witness :
    (getEscrow (createState (initState 0) 1 (some 2) [] 0 [] [] none 0 3600 0 "t" "d")
      (nextId (initState 0))).map EscrowData.totalAmount = some 0 :=
  c7_amended (initState 0) 1 (some 2) [] 0 [] [] none 0 3600 0 "t" "d" true
    (createState (initState 0) 1 (some 2) [] 0 [] [] none 0 3600 0 "t" "d")
    [{ token := none, src := 1, dst := contractAddr, amount := 0 }] (by decide)

/-- C8.  For a native-asset escrow (`token = none`), when its preconditions
hold, `emergency_refund_after_deadline` succeeds, sets the status to
`Expired` and decrements the per-asset escrowed counter by
`total_amount - paid_amount`, but issues NO transfer at all (the native-asset
branch of `refund_system.rs` is an empty comment), for any verdict of the
transfer facility. -/
theorem c8_native_emergency_no_transfer :
    ∀ s escrowId dep seq e xo, escrowId ≠ 0 →
      getEscrow s escrowId = some e → e.token = none → e.depositor = dep →
      e.status ≠ EscrowStatus.Released → e.status ≠ EscrowStatus.Refunded →
      e.deadline + EMERGENCY_REFUND_DELAY < seq →
      0 < e.totalAmount - e.paidAmount →
      emergency_refund_after_deadline s escrowId dep seq xo
        = .ok (emergencyState s escrowId e, []) ∧
      (getEscrow (emergencyState s escrowId e) escrowId).map EscrowData.status
        = some EscrowStatus.Expired ∧
      getEscrowed (emergencyState s escrowId e) (tokenKey e.token)
        = getEscrowed s (tokenKey e.token) - (e.totalAmount - e.paidAmount) := by
  intro s escrowId dep seq e xo hid hget htok hdep hrel href hseq hamt
  have h1 := emergency_refund_succeeds xo hid hget hdep hrel href hseq hamt
    (fun hc => absurd htok hc)
  rw [htok] at h1
  refine ⟨by simpa using h1, ?_, emergencyState_getEscrowed⟩
  rw [emergencyState_getEscrow]
  rfl

/-- C8, witness: evaluated on the trace-C escrow (native asset, total 100),
with the transfer facility even set to reject. -/
theorem c8_native_emergency_no_transfer_witness :
    emergency_refund_after_deadline stC1 1 1 2592721 false
      = .ok (emergencyState stC1 1 eC1, []) ∧
    (getEscrow (emergencyState stC1 1 eC1) 1).map EscrowData.status
      = some EscrowStatus.Expired ∧
    getEscrowed (emergencyState stC1 1 eC1) (tokenKey eC1.token)
      = getEscrowed stC1 (tokenKey eC1.token) - (eC1.totalAmount - eC1.paidAmount) :=
  c8_native_emergency_no_transfer stC1 1 1 2592721 eC1 false (by decide) (by decide)
    (by decide) (by decide) (by decide) (by decide) (by decide) (by decide)

/-- C9.  The platform fee persisted by `create_escrow` equals
`floor(total_amount * fee_bp / 10000)` where `fee_bp` is the admin fee rate
read at creation time (for the nonnegative totals of the data model, Rust's
truncating `i128` division agrees with the floor); the stored fee rate never
exceeds 1000 basis points in a reachable state; and no operation ever changes
the `platform_fee` field of a stored escrow record. -/
theorem c9_fee_formula_and_immutability :
    (∀ s dep ben arb rc amts descs tok total dur seq pt pd xo s' tr,
      0 ≤ total →
      create_escrow s dep ben arb rc amts descs tok total dur seq pt pd xo = .ok (s', tr) →
      (getEscrow s' (nextId s)).map EscrowData.platformFee
        = some ((total * (getPlatformFeeBp s : Int)).fdiv 10000)) ∧
    (∀ s, Reachable s → getPlatformFeeBp s ≤ 1000) ∧
    (∀ s op id e e', Reachable s → getEscrow s id = some e →
      getEscrow (step s op) id = some e' → e'.platformFee = e.platformFee) := by
  refine ⟨?_, ?_, ?_⟩
  · intro s dep ben arb rc amts descs tok total dur seq pt pd xo s' tr htot h
    obtain ⟨_, _, _, _, _, hs', _⟩ := create_escrow_ok h
    subst hs'
    rw [getEscrow, createState_escrows, alookup_aset, if_pos rfl]
    have hstep : Option.map EscrowData.platformFee (some (newEscrowRecord dep ben arb rc tok
        total (calculate_fee s total) (seq + dur / 5) seq amts.length pt pd))
        = some (calculate_fee s total) := rfl
    rw [hstep]
    congr 1
    unfold calculate_fee
    by_cases hbp : getPlatformFeeBp s = 0
    · rw [if_pos hbp, hbp]
      simp
    · rw [if_neg hbp]
      exact (Int.fdiv_eq_tdiv (mul_nonneg htot (Int.natCast_nonneg _)) (by norm_num)).symm
  · intro s hreach
    exact (reachable_coreInv hreach).2.2
  · intro s op id e e' hreach hget hget'
    obtain ⟨hfresh, _, _⟩ := reachable_coreInv hreach
    exact (step_escrow_frame op hfresh hget hget').1

/-- C9, witness: creation at a 250-bp fee rate stores
`floor(1000 * 250 / 10000) = 25`; the initial fee rate is within range; and
`start_work` keeps the stored fee. -/
theorem c9_fee_formula_and_immutability_witness :
    (getEscrow (createState (initState 250) 1 (some 2) [] 0 [100] ["m"] none 1000 3600 0 "t" "d")
      (nextId (initState 250))).map EscrowData.platformFee
      = some (((1000 : Int) * (getPlatformFeeBp (initState 250) : Int)).fdiv 10000) ∧
    getPlatformFeeBp (initState 250) ≤ 1000 ∧
    eA2.platformFee = eA1.platformFee := by
  refine ⟨?_, ?_, ?_⟩
  · exact c9_fee_formula_and_immutability.1 (initState 250) 1 (some 2) [] 0 [100] ["m"] none
      1000 3600 0 "t" "d" true
      (createState (initState 250) 1 (some 2) [] 0 [100] ["m"] none 1000 3600 0 "t" "d")
      [{ token := none, src := 1, dst := contractAddr, amount := 1000 }]
      (by norm_num) (by decide)
  · exact c9_fee_formula_and_immutability.2.1 (initState 250) (Reachable.init 250 (by omega))
  · exact c9_fee_formula_and_immutability.2.2 stA1 (.startWork 1 2) 1 eA1 eA2
      (Reachable.step opA0 (Reachable.init 0 (by omega))) (by decide) (by decide)

/-- C10.  When job creation is not paused and the duration is valid, a
`create_escrow` call whose milestone-amount and milestone-description lists
have different lengths fails with `MilestoneCountMismatch`, and the persisted
state is completely unchanged (the length check precedes every storage write
and the transfer; the failing transaction commits nothing). -/
theorem c10_mismatch_rejected :
    ∀ s dep ben arb rc amts descs tok total dur seq pt pd xo,
      isJobCreationPaused s = false → 3600 ≤ dur → dur ≤ 31536000 →
      amts.length ≠ descs.length →
      create_escrow s dep ben arb rc amts descs tok total dur seq pt pd xo
        = .error (.contractErr .MilestoneCountMismatch) ∧
      step s (.createEscrow dep ben arb rc amts descs tok total dur seq pt pd xo) = s := by
  intro s dep ben arb rc amts descs tok total dur seq pt pd xo hpause h1 h2 hlen
  have hp : ¬ (isJobCreationPaused s = true) := by simp [hpause]
  have hd : ¬ (dur < 3600 ∨ dur > 31536000) := by omega
  have herr : create_escrow s dep ben arb rc amts descs tok total dur seq pt pd xo
      = .error (.contractErr .MilestoneCountMismatch) := by
    unfold create_escrow
    rw [if_neg hp, if_neg hd, if_pos hlen]
  refine ⟨herr, ?_⟩
  rw [step]
  have happ : applyOp s (.createEscrow dep ben arb rc amts descs tok total dur seq pt pd xo)
      = .error (.contractErr .MilestoneCountMismatch) := herr
  rw [happ]

/-- C10, witness: a concrete mismatched creation request is rejected with
`MilestoneCountMismatch` and leaves the initial state untouched. -/
theorem c10_mismatch_rejected_witness :
    create_escrow (initState 0) 1 (some 2) [] 0 [1, 2] ["a"] none 100 3600 0 "t" "d" true
      = .error (.contractErr .MilestoneCountMismatch) ∧
    step (initState 0) (.createEscrow 1 (some 2) [] 0 [1, 2] ["a"] none 100 3600 0 "t" "d" true)
      = initState 0 :=
  c10_mismatch_rejected (initState 0) 1 (some 2) [] 0 [1, 2] ["a"] none 100 3600 0 "t" "d" true
    (by decide) (by decide) (by decide) (by decide)
